import Mathlib

/-!
Verification of the Compass NPU user-mode driver (zhouyi v3.1 job builder,
parser and simulator back end) against its natural-language specification.
The C++ sources are shallowly embedded: machine integers become `Nat` with
explicit truncation (`% 2^w`, `&&&`) where overflow matters, fallible
operations return `Except`, and member-variable state is passed explicitly.
-/

namespace NPU

/-- Subset of `aipu_status_t` error codes reached by the embedded functions
(`AIPU_STATUS_ERROR_*` in the sources). -/
inductive AipuStatus where
  | INVALID_GBIN
  | UNKNOWN_BIN
  | GVERSION_UNSUPPORTED
  | INVALID_TENSOR_TYPE
  | ZERO_TENSOR_SIZE
  | UNMATCH_OUT_SHAPE
  | NULL_PTR
  | INVALID_OP
  deriving Repr, DecidableEq

/- ----------------------------------------------------------------
TCB flag constants, from include/kmd/tcb.h (v3.1 branch of the header).
---------------------------------------------------------------- -/

def TCB_FLAG_TASK_TYPE_GRID_INIT : Nat := 0
def TCB_FLAG_TASK_TYPE_GROUP_INIT : Nat := 1
def TCB_FLAG_TASK_TYPE_TASK : Nat := 2

/-- Macro `TCB_FLAG_TASK_TYPE(flag)` = `flag & 0xF`. -/
def TCB_FLAG_TASK_TYPE (flag : Nat) : Nat := flag &&& 0xF

def TCB_FLAG_DEP_TYPE_NONE : Nat := 0
def TCB_FLAG_DEP_TYPE_GROUP : Nat := 1 <<< 4
def TCB_FLAG_DEP_TYPE_PRE_ALL : Nat := 2 <<< 4

/-- Macro `TCB_FLAG_DEP_TYPE(flag)` = `flag & 0x30`. -/
def TCB_FLAG_DEP_TYPE (flag : Nat) : Nat := flag &&& 0x30

def TCB_FLAG_END_TYPE_GROUP_END : Nat := 1 <<< 6
def TCB_FLAG_END_TYPE_GRID_END : Nat := 1 <<< 7
def TCB_FLAG_END_TYPE_POOL_END : Nat := 1 <<< 8

def TCB_FLAG_GRID_INIT : Nat := 1 <<< 21
def TCB_FLAG_L2D_FLUSH : Nat := 1 <<< 22

def EN_INTERRUPT_TEC_ALL : Nat := 0xF
def EN_INTERRUPT_TEC_SIGNAL : Nat := 1 <<< 1
def EN_INTERRUPT_GRID_ALL : Nat := 1 ||| (1 <<< 3)

def GM_CTRL_REMAP_EN : Nat := 0x1
def GM_SYNC_DDR_TO_GM : Nat := 1 <<< 30

def EN_GROUP_DEPEND : Nat := 1 <<< 15

def ASID_WR : Nat := 1 <<< 5
def ASID_RD : Nat := 1 <<< 6

/-- Low 32 bits of a 64-bit value (`get_low_32`). -/
def lo32 (x : Nat) : Nat := x % 4294967296

/-- High 32 bits of a 64-bit value (`get_high_32`). -/
def hi32 (x : Nat) : Nat := (x / 4294967296) % 4294967296

/-- Truncation to an unsigned 16-bit field. -/
def u16 (x : Nat) : Nat := x % 65536

/-- Flattened model of `struct tcb_t` (128-byte record, v3.1 layout).
The C union of the task view and the grid-init / group-init views is
flattened into one record; a field not written by the embedded code keeps
its `memset`-zero default.  Device-address-valued fields hold the 32-bit
values the code stores in them. -/
structure Tcb where
  flag : Nat := 0
  /- task view (`__data.noninit`) -/
  interrupt_en : Nat := 0
  spc : Nat := 0
  groupid : Nat := 0
  gridid : Nat := 0
  taskid : Nat := 0
  ica_warmup_len : Nat := 0
  grid_dim_x : Nat := 0
  grid_dim_y : Nat := 0
  grid_dim_z : Nat := 0
  group_dim_x : Nat := 0
  group_dim_y : Nat := 0
  group_dim_z : Nat := 0
  group_id_x : Nat := 0
  group_id_y : Nat := 0
  group_id_z : Nat := 0
  task_id_x : Nat := 0
  task_id_y : Nat := 0
  task_id_z : Nat := 0
  sp : Nat := 0
  pp : Nat := 0
  dp : Nat := 0
  cp : Nat := 0
  pprint : Nat := 0
  pprofiler : Nat := 0
  tcbp : Nat := 0
  global_param : Nat := 0
  /- grid-init view (`__data.init.grid_init`) -/
  group_num : Nat := 0
  grid_intrrupt_en : Nat := 0
  grid_groupid : Nat := 0
  grid_gridid : Nat := 0
  gm_ctrl : Nat := 0
  gm_sync : Nat := 0
  gm_addr_low : Nat := 0
  gm_addr_high : Nat := 0
  /- group-init view (`__data.init.group_init`) -/
  group_groupid : Nat := 0
  group_gridid : Nat := 0
  asids : List Nat := List.replicate 8 0
  /- trailing `group_deps[4]` -/
  group_deps : List Nat := List.replicate 4 0
  deriving Repr, DecidableEq

instance : Inhabited Tcb := ⟨{}⟩

/-- `enum` values `SUBG_DEPEND_*` from graph_v3.h; `precursor_cnt` is a
signed `int32_t`, so the model keeps it as `Int`. -/
def SUBG_DEPEND_NONE : Int := 0
def SUBG_DEPEND_PREALL : Int := -1

/-- Model of `struct Subgraph` (graph_v3.h), restricted to the fields the
embedded job-builder functions read.  The `text`/`rodata` sub-section
views are represented by their offsets. -/
structure Subgraph where
  id : Nat := 0
  bss_idx : Nat := 0
  text_offset : Nat := 0
  rodata_offset : Nat := 0
  printfifo_size : Nat := 0
  profiler_buf_size : Nat := 0
  private_data_size : Nat := 0
  warmup_len : Nat := 0
  precursors : List Nat := []
  precursor_cnt : Int := 0
  deriving Repr, DecidableEq

instance : Inhabited Subgraph := ⟨{}⟩

/- ----------------------------------------------------------------
JobV3_1::config_tcb_deps (job_v3_1.cpp:996-1037)
---------------------------------------------------------------- -/

/-- Loop body of `config_tcb_deps` for the `1 ... 4` case: for each listed
precursor, reject ids above `0x7fff`, else write
`EN_GROUP_DEPEND | ((precursors[i] + m_start_group_id) & 0x7FFF)` into
`group_deps[i]`.  The intermediate `uint16_t dep_group_id` assignment
truncates to 16 bits before the `&= 0x7FFF`.  `rem` counts the remaining
iterations (`precursor_cnt - i` at entry), `i` is the loop index. -/
def dep_loop (ps : List Nat) (start : Nat) : Nat → Nat → Tcb → Except AipuStatus Tcb
  | 0, _, tcb => .ok tcb
  | rem + 1, i, tcb =>
    let p := ps.getD i 0
    if p > 0x7fff then .error .INVALID_GBIN
    else
      let dep := ((p + start) % 65536) &&& 0x7FFF
      dep_loop ps start rem (i + 1)
        { tcb with group_deps := tcb.group_deps.set i (EN_GROUP_DEPEND ||| dep) }

/-- `JobV3_1::config_tcb_deps(tcb, sg_id)`: writes the dependency-type bits
of `tcb.flag` and the `group_deps` side table from
`graph.get_subgraph(sg_id).precursor_cnt`. -/
def config_tcb_deps (subgraphs : List Subgraph) (start_group_id : Nat)
    (tcb : Tcb) (sg_id : Nat) : Except AipuStatus Tcb :=
  let sg := subgraphs.getD sg_id {}
  if sg.precursor_cnt = SUBG_DEPEND_NONE then
    .ok { tcb with flag := tcb.flag ||| TCB_FLAG_DEP_TYPE_NONE }
  else if 1 ≤ sg.precursor_cnt ∧ sg.precursor_cnt ≤ 4 then
    dep_loop sg.precursors start_group_id sg.precursor_cnt.toNat 0
      { tcb with flag := tcb.flag ||| TCB_FLAG_DEP_TYPE_GROUP }
  else if sg.precursor_cnt = SUBG_DEPEND_PREALL then
    .ok { tcb with flag := tcb.flag ||| TCB_FLAG_DEP_TYPE_PRE_ALL }
  else .error .INVALID_GBIN

/- ----------------------------------------------------------------
ParserBase::sort_io_tensor (parser_base.cpp:58-76)
---------------------------------------------------------------- -/

/-- Model of `GraphIOTensorDesc`, restricted to the integer fields (the
`float` quantisation fields `scale`/`zero_point` are never read by the
embedded functions). -/
structure GraphIOTensorDesc where
  id : Nat := 0
  size : Nat := 0
  ref_section_iter : Nat := 0
  offset_in_section : Nat := 0
  data_type : Nat := 0
  deriving Repr, DecidableEq

instance : Inhabited GraphIOTensorDesc := ⟨{}⟩

/-- Loop of `sort_io_tensor`: `tmp` is the frozen copy (`tensors_tmp`),
`idxs` the remaining loop indices, `cur` the in-place-mutated vector. -/
def sortIoLoop (tmp : List GraphIOTensorDesc) (idxs : List Nat)
    (cur : List GraphIOTensorDesc) : Except AipuStatus (List GraphIOTensorDesc) :=
  match idxs with
  | [] => .ok cur
  | i :: rest =>
    let t := tmp.getD i {}
    if t.id ≥ tmp.length then .error .INVALID_GBIN
    else sortIoLoop tmp rest (if t.id = i then cur else cur.set t.id t)

/-- `ParserBase::sort_io_tensor(tensors)`: moves each descriptor whose `id`
differs from its position to position `id`; any `id ≥ size` aborts with
`AIPU_STATUS_ERROR_INVALID_GBIN`. -/
def sort_io_tensor (tensors : List GraphIOTensorDesc) :
    Except AipuStatus (List GraphIOTensorDesc) :=
  sortIoLoop tensors (List.range tensors.length) tensors

/- ----------------------------------------------------------------
JobV3_1 TCB-chain construction (job_v3_1.cpp:66-85, 1039-1214)
---------------------------------------------------------------- -/

/-- State of a `JobV3_1` at `setup_tcb_chain` time.  Graph data
(`subgraphs`, text/rodata bases, weight-buffer ASID bases) and the
addresses produced by `alloc_load_job_buffers` / `init_per_task_data`
(TCB buffer, per-task stack and private-data buffers, printf/profiler
buffers) are inputs here; `m_sg_cnt` equals `subgraphs.length` per
`set_job_params(get_subgraph_cnt(), 4, ...)`. -/
structure Job where
  subgraphs : List Subgraph := []
  task_per_sg : Nat := 4
  grid_id : Nat := 0
  start_group_id : Nat := 0
  /- allocation results (physical / asid-aligned addresses) -/
  text_align_asid_pa : Nat := 0
  rodata_align_asid_pa : Nat := 0
  crodata_align_asid_pa : Option Nat := none
  tcbs_asid_base : Nat := 0
  task_tcb_pa : Nat → Nat → Nat := fun _ _ => 0
  task_stack_align_pa : Nat → Nat → Nat := fun _ _ => 0
  task_private_data_align_pa : Nat → Nat → Nat := fun _ _ => 0
  profiler_cnt : Nat := 0
  profiler0_align_pa : Nat := 0
  pprint_align_pa : Nat := 0
  model_global_param_align_pa : Nat := 0
  dyn_shape_with_config : Bool := false
  /- memory-manager / graph ASID data -/
  asid0_base : Nat := 0
  asid1_base : Nat := 0
  bweight_cnt : Nat := 0
  wb_asid_base : Nat → Nat := fun _ => 0
  /- GM helper state (`GM_V3_1` / `UMemory`) -/
  gm_enable : Bool := false
  gm_need_remap : Bool := false
  gm_size : Nat := 0
  gm_buf_base : Nat := 0
  gm_buf_sync_size : Nat := 0

/-- `graph.get_subgraph(i)` (unchecked `std::vector` access in C++;
out-of-range reads are absent in the theorems, which bound `i`). -/
def getSubgraph (j : Job) (i : Nat) : Subgraph := j.subgraphs.getD i {}

def AIPU_PAGE_SIZE : Nat := 4096

/-- `JobV3_1::setup_gm_sync_from_ddr(tcb)` (job_v3_1.cpp:87-103).  The
`uint32_t` expression `(gm_size >> 18) - 1` wraps at 2^32. -/
def setup_gm_sync_from_ddr (j : Job) (tcb : Tcb) : Tcb :=
  if !j.gm_enable then tcb
  else if !j.gm_need_remap then tcb
  else
    let remap_mode : Nat := 0
    let remap_size : Nat := ((j.gm_size >>> 18) + 4294967295) % 4294967296
    let tcb := { tcb with
      gm_ctrl := ((remap_size &&& 0xFF) <<< 8) ||| ((remap_mode &&& 0x1) <<< 1) ||| GM_CTRL_REMAP_EN,
      gm_addr_low := lo32 j.gm_buf_base,
      gm_addr_high := hi32 j.gm_buf_base }
    if j.gm_buf_sync_size ≠ 0 then { tcb with gm_sync := GM_SYNC_DDR_TO_GM } else tcb

/-- Grid-init TCB written at the head of the chain by
`JobV3_1::setup_tcb_chain` (job_v3_1.cpp:1136-1145); `m_group_id_idx`
still equals `m_start_group_id` at this point. -/
def grid_init_tcb (j : Job) : Tcb :=
  setup_gm_sync_from_ddr j
    { flag := TCB_FLAG_TASK_TYPE_GRID_INIT ||| TCB_FLAG_L2D_FLUSH,
      group_num := j.subgraphs.length,
      grid_intrrupt_en := EN_INTERRUPT_GRID_ALL,
      grid_gridid := u16 j.grid_id,
      grid_groupid := u16 j.start_group_id }

/-- Group-init TCB for loop iteration `i` of `setup_tcb_chain`
(job_v3_1.cpp:1149-1192); `gidx` is the value of the member
`m_group_id_idx` (= `m_start_group_id + i`). -/
def group_init_tcb (j : Job) (gidx i : Nat) : Except AipuStatus Tcb := do
  let tcb : Tcb :=
    { flag := TCB_FLAG_TASK_TYPE_GROUP_INIT ||| TCB_FLAG_GRID_INIT,
      group_gridid := u16 j.grid_id,
      group_groupid := u16 gidx }
  let tcb ← config_tcb_deps j.subgraphs j.start_group_id tcb (getSubgraph j i).id
  let asid1 : Nat :=
    if j.bweight_cnt > 0 then j.wb_asid_base (getSubgraph j i).bss_idx
    else j.asid1_base
  .ok { tcb with asids :=
    [lo32 (j.asid0_base ||| ASID_RD ||| ASID_WR), hi32 j.asid0_base,
     lo32 (asid1 ||| ASID_RD ||| ASID_WR), hi32 asid1, 0, 0, 0, 0] }

/-- `JobV3_1::setup_task_tcb(sg_id, grid_id, core_id, task_id)`
(job_v3_1.cpp:1039-1110); `gidx` is the member `m_group_id_idx` at call
time.  The final `m_mem->write` is performed by the chain builder. -/
def setup_task_tcb (j : Job) (gidx sg_id grid_id task_id : Nat) :
    Except AipuStatus Tcb := do
  let sg := getSubgraph j sg_id
  let tcb : Tcb := { interrupt_en := EN_INTERRUPT_TEC_ALL, flag := TCB_FLAG_TASK_TYPE_TASK }
  let tcb := if task_id = j.task_per_sg - 1 then
      { tcb with flag := tcb.flag ||| TCB_FLAG_END_TYPE_GROUP_END } else tcb
  let tcb := if sg_id = j.subgraphs.length - 1 ∧ task_id = j.task_per_sg - 1 then
      { tcb with flag := tcb.flag ||| TCB_FLAG_END_TYPE_GRID_END } else tcb
  let tcb ← if task_id = 0 then
      config_tcb_deps j.subgraphs j.start_group_id tcb sg_id
    else .ok tcb
  let tcb := { tcb with
    spc := lo32 (j.text_align_asid_pa + sg.text_offset),
    groupid := u16 gidx,
    gridid := u16 grid_id,
    taskid := u16 task_id,
    ica_warmup_len := u16 sg.warmup_len,
    grid_dim_x := 1, grid_dim_y := 1, grid_dim_z := 1,
    group_dim_x := u16 j.task_per_sg, group_dim_y := 1, group_dim_z := 1,
    group_id_x := 1, group_id_y := 0, group_id_z := 0,
    task_id_x := u16 task_id, task_id_y := 0, task_id_z := 0,
    tcbp := lo32 (j.task_tcb_pa sg_id task_id - j.tcbs_asid_base),
    sp := lo32 (j.task_stack_align_pa sg_id task_id),
    pp := lo32 (j.rodata_align_asid_pa + sg.rodata_offset),
    dp := lo32 (j.task_private_data_align_pa sg_id task_id) }
  let tcb := match j.crodata_align_asid_pa with
    | some cpa => { tcb with cp := lo32 cpa }
    | none => tcb
  let tcb := if j.profiler_cnt > 0 then
      { tcb with pprofiler := lo32 (j.profiler0_align_pa + sg.profiler_buf_size) } else tcb
  let tcb := if sg.printfifo_size > 0 then
      { tcb with
        pprint := lo32 (j.pprint_align_pa + AIPU_PAGE_SIZE * sg_id + 1024 * task_id),
        interrupt_en := tcb.interrupt_en ||| EN_INTERRUPT_TEC_SIGNAL } else tcb
  let tcb := if j.dyn_shape_with_config then
      { tcb with global_param := lo32 j.model_global_param_align_pa } else tcb
  .ok tcb

/-- Task-TCB writes of `setup_tcb_group` for the `rem` remaining tasks
starting at loop index `t` (the full loop is `rem = task_per_sg`, `t = 0`),
paired with the destination TCB index.  Task `t` of the row `sg_id` lives
at byte offset `(2 + sg_id*(1+task_per_sg) + t) * sizeof(tcb_t)` from
`m_tcbs->pa` (`init_per_task_data`, job_v3_1.cpp:553/574), i.e. at TCB
index `2 + sg_id*(task_per_sg+1) + t`. -/
def task_tcb_writes (j : Job) (gidx sg_id grid_id : Nat) :
    Nat → Nat → Except AipuStatus (List (Nat × Tcb))
  | 0, _ => .ok []
  | rem + 1, t => do
    let tcb ← setup_task_tcb j gidx sg_id grid_id t
    let rest ← task_tcb_writes j gidx sg_id grid_id rem (t + 1)
    .ok ((2 + sg_id * (j.task_per_sg + 1) + t, tcb) :: rest)

/-- TCB writes performed by the first `n` iterations of the subgraph loop
of `setup_tcb_chain` (job_v3_1.cpp:1147-1201).  Iteration `i` writes the
group-init TCB at byte offset `sizeof(tcb_t) + (task_per_sg+1)*i*
sizeof(tcb_t)` (index `1 + (task_per_sg+1)*i`) and then the task TCBs of
subgraph `get_subgraph(i).id`; `m_group_id_idx` is `start_group_id + i`
during iteration `i` (incremented once per `setup_tcb_group`). -/
def group_writes (j : Job) (grid_id : Nat) : Nat → Except AipuStatus (List (Nat × Tcb))
  | 0 => .ok []
  | n + 1 => do
    let pre ← group_writes j grid_id n
    let g ← group_init_tcb j (j.start_group_id + n) n
    let ts ← task_tcb_writes j (j.start_group_id + n) (getSubgraph j n).id grid_id
      j.task_per_sg 0
    .ok (pre ++ (1 + (j.task_per_sg + 1) * n, g) :: ts)

/-- `JobV3_1::setup_tcb_chain` as the ordered list of (TCB index, value)
writes it issues to the TCB buffer: the grid-init TCB at index 0 followed
by the per-subgraph writes. -/
def setup_tcb_chain (j : Job) : Except AipuStatus (List (Nat × Tcb)) := do
  let ws ← group_writes j j.grid_id j.subgraphs.length
  .ok ((0, grid_init_tcb j) :: ws)

/-- Replay of a write log over a memory of TCBs; the initial memory is
all-zero (`m_mem->zeroize` of the TCB buffer in `alloc_load_job_buffers`,
job_v3_1.cpp:678). -/
def tcb_apply (m : Nat → Tcb) (writes : List (Nat × Tcb)) : Nat → Tcb :=
  writes.foldl (fun acc w => fun idx => if idx = w.1 then w.2 else acc idx) m

/-- Final contents of the TCB buffer after `setup_tcb_chain`. -/
def tcb_mem (writes : List (Nat × Tcb)) : Nat → Tcb :=
  tcb_apply (fun _ => {}) writes

/- ----------------------------------------------------------------
Specification lemmas for config_tcb_deps
---------------------------------------------------------------- -/

/-- Encoded dependency word for precursor `p` against a start group id. -/
def dep_word (p start : Nat) : Nat :=
  EN_GROUP_DEPEND ||| (((p + start) % 65536) &&& 0x7FFF)

theorem dep_loop_spec (ps : List Nat) (start : Nat) :
    ∀ rem i tcb t',
    dep_loop ps start rem i tcb = .ok t' →
    t'.flag = tcb.flag ∧
    t'.group_deps.length = tcb.group_deps.length ∧
    (∀ k, k < i ∨ i + rem ≤ k → t'.group_deps.getD k 0 = tcb.group_deps.getD k 0) ∧
    (∀ k, i ≤ k → k < i + rem → k < tcb.group_deps.length →
      t'.group_deps.getD k 0 = dep_word (ps.getD k 0) start) := by
  intro rem
  induction rem with
  | zero =>
    intro i tcb t' h
    cases h
    refine ⟨rfl, rfl, fun k _ => rfl, fun k hk1 hk2 _ => by omega⟩
  | succ rem ih =>
    intro i tcb t' h
    rw [dep_loop] at h
    by_cases hbad : ps.getD i 0 > 0x7fff
    · simp only [hbad, if_pos] at h
      cases h
    · simp only [hbad, if_neg, not_false_iff] at h
      have hrec := ih (i + 1) _ t' h
      obtain ⟨hf, hlen, hout, hin⟩ := hrec
      refine ⟨hf, by simpa using hlen, ?_, ?_⟩
      · intro k hk
        have hk' : k < i + 1 ∨ (i + 1) + rem ≤ k := by omega
        have := hout k hk'
        rw [this]
        simp only [List.getD_eq_getElem?_getD]
        rw [List.getElem?_set_ne (by omega)]
      · intro k hk1 hk2 hk3
        rcases Nat.eq_or_lt_of_le hk1 with heq | hlt
        · have hki : k = i := heq.symm
          subst hki
          have := hout k (Or.inl (by omega))
          rw [this]
          simp only [List.getD_eq_getElem?_getD]
          rw [List.getElem?_set]
          simp only [if_pos rfl, hk3, if_pos]
          rfl
        · have := hin k (by omega) (by omega) (by simpa using hk3)
          exact this

theorem dep_loop_ok (ps : List Nat) (start : Nat) :
    ∀ rem i tcb,
    (∀ k, i ≤ k → k < i + rem → ps.getD k 0 ≤ 0x7fff) →
    ∃ t', dep_loop ps start rem i tcb = .ok t' := by
  intro rem
  induction rem with
  | zero =>
    intro i tcb _
    exact ⟨tcb, rfl⟩
  | succ rem ih =>
    intro i tcb hgood
    rw [dep_loop]
    have hb : ¬ ps.getD i 0 > 0x7fff := by
      have := hgood i le_rfl (by omega)
      omega
    simp only [hb, if_neg, not_false_iff]
    exact ih (i + 1) _ (fun k hk1 hk2 => hgood k (by omega) (by omega))

theorem dep_loop_err (ps : List Nat) (start : Nat) :
    ∀ rem i tcb,
    (∃ k, i ≤ k ∧ k < i + rem ∧ ps.getD k 0 > 0x7fff) →
    dep_loop ps start rem i tcb = .error .INVALID_GBIN := by
  intro rem
  induction rem with
  | zero =>
    rintro i tcb ⟨k, hk1, hk2, _⟩
    omega
  | succ rem ih =>
    rintro i tcb ⟨k, hk1, hk2, hbad⟩
    rw [dep_loop]
    by_cases hb : ps.getD i 0 > 0x7fff
    · simp only [hb, if_pos]
    · simp only [hb, if_neg, not_false_iff]
      have hki : k ≠ i := fun h => by subst h; omega
      exact ih (i + 1) _ ⟨k, by omega, by omega, hbad⟩

theorem config_deps_none {gs : List Subgraph} {start : Nat} {tcb : Tcb} {sgid : Nat}
    (h : (gs.getD sgid {}).precursor_cnt = 0) :
    config_tcb_deps gs start tcb sgid = .ok tcb := by
  unfold config_tcb_deps
  simp only [h, SUBG_DEPEND_NONE, if_pos, TCB_FLAG_DEP_TYPE_NONE, Nat.or_zero]

theorem config_deps_preall {gs : List Subgraph} {start : Nat} {tcb : Tcb} {sgid : Nat}
    (h : (gs.getD sgid {}).precursor_cnt = -1) :
    config_tcb_deps gs start tcb sgid =
      .ok { tcb with flag := tcb.flag ||| TCB_FLAG_DEP_TYPE_PRE_ALL } := by
  simp only [config_tcb_deps, SUBG_DEPEND_NONE, SUBG_DEPEND_PREALL]
  rw [if_neg (by omega), if_neg (by omega), if_pos h]

theorem config_deps_invalid {gs : List Subgraph} {start : Nat} {tcb : Tcb} {sgid : Nat}
    (h : (gs.getD sgid {}).precursor_cnt < -1 ∨ (gs.getD sgid {}).precursor_cnt > 4) :
    config_tcb_deps gs start tcb sgid = .error .INVALID_GBIN := by
  simp only [config_tcb_deps, SUBG_DEPEND_NONE, SUBG_DEPEND_PREALL]
  rw [if_neg (by omega), if_neg (by omega), if_neg (by omega)]

theorem config_deps_group_ok {gs : List Subgraph} {start : Nat} {tcb : Tcb} {sgid : Nat}
    (h1 : 1 ≤ (gs.getD sgid {}).precursor_cnt) (h2 : (gs.getD sgid {}).precursor_cnt ≤ 4)
    (h3 : ∀ k, k < (gs.getD sgid {}).precursor_cnt.toNat →
      (gs.getD sgid {}).precursors.getD k 0 ≤ 0x7fff) :
    ∃ t', config_tcb_deps gs start tcb sgid = .ok t' ∧
      t'.flag = tcb.flag ||| TCB_FLAG_DEP_TYPE_GROUP ∧
      t'.group_deps.length = tcb.group_deps.length ∧
      (∀ k, (gs.getD sgid {}).precursor_cnt.toNat ≤ k →
        t'.group_deps.getD k 0 = tcb.group_deps.getD k 0) ∧
      (∀ k, k < (gs.getD sgid {}).precursor_cnt.toNat → k < tcb.group_deps.length →
        t'.group_deps.getD k 0 = dep_word ((gs.getD sgid {}).precursors.getD k 0) start) := by
  simp only [config_tcb_deps, SUBG_DEPEND_NONE, SUBG_DEPEND_PREALL]
  rw [if_neg (by omega), if_pos ⟨h1, h2⟩]
  set sg := gs.getD sgid {} with hsg
  set tcb1 : Tcb := { tcb with flag := tcb.flag ||| TCB_FLAG_DEP_TYPE_GROUP } with htcb1
  obtain ⟨t', ht'⟩ := dep_loop_ok sg.precursors start
    sg.precursor_cnt.toNat 0 tcb1 (fun k _ hk2 => h3 k (by omega))
  obtain ⟨hf, hlen, hout, hin⟩ := dep_loop_spec sg.precursors start
    sg.precursor_cnt.toNat 0 tcb1 t' ht'
  refine ⟨t', ht', hf, hlen, ?_, ?_⟩
  · intro k hk
    exact hout k (Or.inr (by omega))
  · intro k hk1 hk2
    exact hin k (Nat.zero_le k) (by omega) hk2

theorem config_deps_group_err {gs : List Subgraph} {start : Nat} {tcb : Tcb} {sgid : Nat}
    (h1 : 1 ≤ (gs.getD sgid {}).precursor_cnt) (h2 : (gs.getD sgid {}).precursor_cnt ≤ 4)
    (h3 : ∃ k, k < (gs.getD sgid {}).precursor_cnt.toNat ∧
      (gs.getD sgid {}).precursors.getD k 0 > 0x7fff) :
    config_tcb_deps gs start tcb sgid = .error .INVALID_GBIN := by
  simp only [config_tcb_deps, SUBG_DEPEND_NONE, SUBG_DEPEND_PREALL]
  rw [if_neg (by omega), if_pos ⟨h1, h2⟩]
  obtain ⟨k, hk1, hk2⟩ := h3
  exact dep_loop_err (gs.getD sgid {}).precursors start
    (gs.getD sgid {}).precursor_cnt.toNat 0 _ ⟨k, Nat.zero_le k, by omega, hk2⟩

theorem config_deps_flag {gs : List Subgraph} {start : Nat} {tcb : Tcb} {sgid : Nat}
    {t' : Tcb} (h : config_tcb_deps gs start tcb sgid = .ok t') :
    t'.flag = tcb.flag ∨ t'.flag = tcb.flag ||| TCB_FLAG_DEP_TYPE_GROUP ∨
      t'.flag = tcb.flag ||| TCB_FLAG_DEP_TYPE_PRE_ALL := by
  simp only [config_tcb_deps, SUBG_DEPEND_NONE, SUBG_DEPEND_PREALL] at h
  split at h
  · cases h
    simp [TCB_FLAG_DEP_TYPE_NONE]
  · split at h
    · obtain ⟨hf, _, _, _⟩ := dep_loop_spec _ _ _ 0 _ t' h
      exact Or.inr (Or.inl hf)
    · split at h
      · cases h
        exact Or.inr (Or.inr rfl)
      · cases h

/- ----------------------------------------------------------------
Specification lemmas for setup_task_tcb
---------------------------------------------------------------- -/

/-- The task-type and end-type bits a task TCB receives before the
dependency configuration step. -/
def task_flag_base (j : Job) (sg_id t : Nat) : Nat :=
  let f := TCB_FLAG_TASK_TYPE_TASK
  let f := if t = j.task_per_sg - 1 then f ||| TCB_FLAG_END_TYPE_GROUP_END else f
  if sg_id = j.subgraphs.length - 1 ∧ t = j.task_per_sg - 1 then
    f ||| TCB_FLAG_END_TYPE_GRID_END else f

/-- The task TCB of `setup_task_tcb` just before the dependency bind. -/
def task_pre_tcb (j : Job) (sg_id t : Nat) : Tcb :=
  let tcb : Tcb := { interrupt_en := EN_INTERRUPT_TEC_ALL, flag := TCB_FLAG_TASK_TYPE_TASK }
  let tcb := if t = j.task_per_sg - 1 then
    { tcb with flag := tcb.flag ||| TCB_FLAG_END_TYPE_GROUP_END } else tcb
  if sg_id = j.subgraphs.length - 1 ∧ t = j.task_per_sg - 1 then
    { tcb with flag := tcb.flag ||| TCB_FLAG_END_TYPE_GRID_END } else tcb

/-- The field block written by `setup_task_tcb` after the dependency bind. -/
def task_post_tcb (j : Job) (gidx sg_id grid_id task_id : Nat) (tcb : Tcb) : Tcb :=
  let sg := getSubgraph j sg_id
  let tcb := { tcb with
    spc := lo32 (j.text_align_asid_pa + sg.text_offset),
    groupid := u16 gidx,
    gridid := u16 grid_id,
    taskid := u16 task_id,
    ica_warmup_len := u16 sg.warmup_len,
    grid_dim_x := 1, grid_dim_y := 1, grid_dim_z := 1,
    group_dim_x := u16 j.task_per_sg, group_dim_y := 1, group_dim_z := 1,
    group_id_x := 1, group_id_y := 0, group_id_z := 0,
    task_id_x := u16 task_id, task_id_y := 0, task_id_z := 0,
    tcbp := lo32 (j.task_tcb_pa sg_id task_id - j.tcbs_asid_base),
    sp := lo32 (j.task_stack_align_pa sg_id task_id),
    pp := lo32 (j.rodata_align_asid_pa + sg.rodata_offset),
    dp := lo32 (j.task_private_data_align_pa sg_id task_id) }
  let tcb := match j.crodata_align_asid_pa with
    | some cpa => { tcb with cp := lo32 cpa }
    | none => tcb
  let tcb := if j.profiler_cnt > 0 then
    { tcb with pprofiler := lo32 (j.profiler0_align_pa + sg.profiler_buf_size) } else tcb
  let tcb := if sg.printfifo_size > 0 then
    { tcb with
      pprint := lo32 (j.pprint_align_pa + AIPU_PAGE_SIZE * sg_id + 1024 * task_id),
      interrupt_en := tcb.interrupt_en ||| EN_INTERRUPT_TEC_SIGNAL } else tcb
  if j.dyn_shape_with_config then
    { tcb with global_param := lo32 j.model_global_param_align_pa } else tcb

theorem setup_task_tcb_eq (j : Job) (gidx sg_id grid_id t : Nat) :
    setup_task_tcb j gidx sg_id grid_id t =
      (if t = 0 then
          config_tcb_deps j.subgraphs j.start_group_id (task_pre_tcb j sg_id t) sg_id
        else .ok (task_pre_tcb j sg_id t)) >>=
        (fun tcb => .ok (task_post_tcb j gidx sg_id grid_id t tcb)) := by
  by_cases h0 : t = 0
  · simp only [setup_task_tcb, if_pos h0]
    rfl
  · simp only [setup_task_tcb, if_neg h0]
    rfl

theorem task_post_tcb_flag (j : Job) (gidx sg_id grid_id t : Nat) (tcb : Tcb) :
    (task_post_tcb j gidx sg_id grid_id t tcb).flag = tcb.flag ∧
    (task_post_tcb j gidx sg_id grid_id t tcb).group_deps = tcb.group_deps ∧
    (task_post_tcb j gidx sg_id grid_id t tcb).taskid = u16 t := by
  cases hc : j.crodata_align_asid_pa <;>
    simp only [task_post_tcb, hc] <;>
    refine ⟨?_, ?_, ?_⟩ <;>
    (repeat' split) <;> simp

theorem task_pre_tcb_flag (j : Job) (sg_id t : Nat) :
    (task_pre_tcb j sg_id t).flag = task_flag_base j sg_id t ∧
    (task_pre_tcb j sg_id t).group_deps = List.replicate 4 0 := by
  unfold task_pre_tcb task_flag_base
  split <;> split <;> simp

theorem setup_task_tcb_flag {j : Job} {gidx sg_id grid_id t : Nat} {tt : Tcb}
    (h : setup_task_tcb j gidx sg_id grid_id t = .ok tt) :
    ∃ d, (d = 0 ∨ d = 16 ∨ d = 32) ∧ (t ≠ 0 → d = 0) ∧
      tt.flag = task_flag_base j sg_id t ||| d ∧ tt.taskid = u16 t := by
  rw [setup_task_tcb_eq] at h
  by_cases h0 : t = 0
  · rw [if_pos h0] at h
    rcases hc : config_tcb_deps j.subgraphs j.start_group_id
        (task_pre_tcb j sg_id t) sg_id with e | t1
    · rw [hc] at h
      cases h
    · rw [hc] at h
      change Except.ok (task_post_tcb j gidx sg_id grid_id t t1) = Except.ok tt at h
      injection h with h
      obtain ⟨hf, _, ht⟩ := task_post_tcb_flag j gidx sg_id grid_id t t1
      rcases config_deps_flag hc with h1 | h1 | h1
      · exact ⟨0, Or.inl rfl, fun hne => absurd h0 hne, by
          rw [← h, hf, h1, (task_pre_tcb_flag j sg_id t).1, Nat.or_zero], by rw [← h, ht]⟩
      · exact ⟨16, Or.inr (Or.inl rfl), fun hne => absurd h0 hne, by
          rw [← h, hf, h1, (task_pre_tcb_flag j sg_id t).1]; rfl, by rw [← h, ht]⟩
      · exact ⟨32, Or.inr (Or.inr rfl), fun hne => absurd h0 hne, by
          rw [← h, hf, h1, (task_pre_tcb_flag j sg_id t).1]; rfl, by rw [← h, ht]⟩
  · rw [if_neg h0] at h
    change Except.ok (task_post_tcb j gidx sg_id grid_id t (task_pre_tcb j sg_id t)) =
      Except.ok tt at h
    injection h with h
    obtain ⟨hf, _, ht⟩ := task_post_tcb_flag j gidx sg_id grid_id t (task_pre_tcb j sg_id t)
    exact ⟨0, Or.inl rfl, fun _ => rfl, by
      rw [← h, hf, (task_pre_tcb_flag j sg_id t).1, Nat.or_zero], by rw [← h, ht]⟩

/- ----------------------------------------------------------------
Write-log replay lemmas
---------------------------------------------------------------- -/

theorem tcb_apply_nil (m : Nat → Tcb) : tcb_apply m [] = m := rfl

theorem tcb_apply_cons (m : Nat → Tcb) (w : Nat × Tcb) (ws : List (Nat × Tcb)) :
    tcb_apply m (w :: ws) =
      tcb_apply (fun idx => if idx = w.1 then w.2 else m idx) ws := rfl

theorem tcb_apply_append (m : Nat → Tcb) (ws1 ws2 : List (Nat × Tcb)) :
    tcb_apply m (ws1 ++ ws2) = tcb_apply (tcb_apply m ws1) ws2 := by
  simp [tcb_apply, List.foldl_append]

theorem tcb_apply_not_mem (ws : List (Nat × Tcb)) :
    ∀ (m : Nat → Tcb) (idx : Nat), (∀ w ∈ ws, w.1 ≠ idx) →
    tcb_apply m ws idx = m idx := by
  induction ws with
  | nil => intro m idx _; rfl
  | cons w rest ih =>
    intro m idx hne
    rw [tcb_apply_cons]
    rw [ih _ idx (fun w' hw' => hne w' (List.mem_cons_of_mem w hw'))]
    rw [if_neg]
    exact fun hc => hne w (List.mem_cons_self w rest) (hc ▸ rfl)

/-- Per-task characterization of `task_tcb_writes`: every write lies in
the task slots of row `sg_id`, and replaying the log puts each task TCB at
its slot. -/
theorem task_writes_mem (j : Job) (gidx sg_id grid_id : Nat) :
    ∀ rem t ts,
    task_tcb_writes j gidx sg_id grid_id rem t = .ok ts →
    (∀ m0 idx, (idx < 2 + sg_id * (j.task_per_sg + 1) + t ∨
        2 + sg_id * (j.task_per_sg + 1) + t + rem ≤ idx) →
      tcb_apply m0 ts idx = m0 idx) ∧
    (∀ m0 u, t ≤ u → u < t + rem →
      ∃ tt, setup_task_tcb j gidx sg_id grid_id u = .ok tt ∧
        tcb_apply m0 ts (2 + sg_id * (j.task_per_sg + 1) + u) = tt) := by
  intro rem
  induction rem with
  | zero =>
    intro t ts h
    cases h
    exact ⟨fun m0 idx _ => rfl, fun m0 u hu1 hu2 => by omega⟩
  | succ rem ih =>
    intro t ts h
    rw [task_tcb_writes] at h
    rcases hs : setup_task_tcb j gidx sg_id grid_id t with e | tcb
    · rw [hs] at h; cases h
    · rw [hs] at h
      rcases hr : task_tcb_writes j gidx sg_id grid_id rem (t + 1) with e | rest
      · rw [hr] at h; cases h
      · rw [hr] at h
        change Except.ok ((2 + sg_id * (j.task_per_sg + 1) + t, tcb) :: rest) =
          Except.ok ts at h
        injection h with h
        subst h
        obtain ⟨ihout, ihin⟩ := ih (t + 1) rest hr
        constructor
        · intro m0 idx hidx
          rw [tcb_apply_cons]
          rw [ihout _ idx (by omega)]
          simp only []
          rw [if_neg (by omega)]
        · intro m0 u hu1 hu2
          rcases Nat.eq_or_lt_of_le hu1 with heq | hlt
          · subst heq
            refine ⟨tcb, hs, ?_⟩
            rw [tcb_apply_cons]
            rw [ihout _ _ (by omega)]
            simp
          · obtain ⟨tt, htt, happ⟩ := ihin (fun idx =>
              if idx = 2 + sg_id * (j.task_per_sg + 1) + t then tcb else m0 idx)
              u (by omega) (by omega)
            exact ⟨tt, htt, by rw [tcb_apply_cons]; exact happ⟩

/-- If the first task TCB of a row cannot be built, `task_tcb_writes`
propagates the error. -/
theorem task_writes_err (j : Job) (gidx sg_id grid_id : Nat) {e : AipuStatus}
    {rem : Nat} (hT : 0 < rem)
    (hs : setup_task_tcb j gidx sg_id grid_id 0 = .error e) :
    task_tcb_writes j gidx sg_id grid_id rem 0 = .error e := by
  rcases rem with _ | rem
  · omega
  · rw [task_tcb_writes]
    rw [hs]
    rfl

/- ----------------------------------------------------------------
Specification lemmas for group_init_tcb and group_writes
---------------------------------------------------------------- -/

/-- The group-init TCB before the dependency bind. -/
def group_pre_tcb (j : Job) (gidx : Nat) : Tcb :=
  { flag := TCB_FLAG_TASK_TYPE_GROUP_INIT ||| TCB_FLAG_GRID_INIT,
    group_gridid := u16 j.grid_id,
    group_groupid := u16 gidx }

/-- The ASID block written into a group-init TCB after the dependency
bind. -/
def group_post_tcb (j : Job) (i : Nat) (tcb : Tcb) : Tcb :=
  let asid1 : Nat :=
    if j.bweight_cnt > 0 then j.wb_asid_base (getSubgraph j i).bss_idx
    else j.asid1_base
  { tcb with asids :=
    [lo32 (j.asid0_base ||| ASID_RD ||| ASID_WR), hi32 j.asid0_base,
     lo32 (asid1 ||| ASID_RD ||| ASID_WR), hi32 asid1, 0, 0, 0, 0] }

theorem group_init_tcb_eq (j : Job) (gidx i : Nat) :
    group_init_tcb j gidx i =
      config_tcb_deps j.subgraphs j.start_group_id (group_pre_tcb j gidx)
        (getSubgraph j i).id >>= (fun tcb => .ok (group_post_tcb j i tcb)) := by
  rfl

theorem dep_loop_preserves (ps : List Nat) (start : Nat) :
    ∀ rem i tcb t',
    dep_loop ps start rem i tcb = .ok t' →
    t'.group_groupid = tcb.group_groupid ∧ t'.group_gridid = tcb.group_gridid := by
  intro rem
  induction rem with
  | zero =>
    intro i tcb t' h
    cases h
    exact ⟨rfl, rfl⟩
  | succ rem ih =>
    intro i tcb t' h
    rw [dep_loop] at h
    by_cases hbad : ps.getD i 0 > 0x7fff
    · simp only [hbad, if_pos] at h; cases h
    · simp only [hbad, if_neg, not_false_iff] at h
      obtain ⟨h1, h2⟩ := ih (i + 1) _ t' h
      exact ⟨h1, h2⟩

theorem config_deps_preserves {gs : List Subgraph} {start : Nat} {tcb : Tcb} {sgid : Nat}
    {t' : Tcb} (h : config_tcb_deps gs start tcb sgid = .ok t') :
    t'.group_groupid = tcb.group_groupid ∧ t'.group_gridid = tcb.group_gridid := by
  simp only [config_tcb_deps, SUBG_DEPEND_NONE, SUBG_DEPEND_PREALL] at h
  split at h
  · cases h; exact ⟨rfl, rfl⟩
  · split at h
    · obtain ⟨h1, h2⟩ := dep_loop_preserves _ _ _ 0 _ t' h
      exact ⟨h1, h2⟩
    · split at h
      · cases h; exact ⟨rfl, rfl⟩
      · cases h

theorem group_pre_tcb_flag (j : Job) (gidx : Nat) :
    (group_pre_tcb j gidx).flag =
      TCB_FLAG_TASK_TYPE_GROUP_INIT ||| TCB_FLAG_GRID_INIT := rfl

theorem group_init_tcb_inv {j : Job} {gidx i : Nat} {g : Tcb}
    (h : group_init_tcb j gidx i = .ok g) :
    ∃ t1, config_tcb_deps j.subgraphs j.start_group_id (group_pre_tcb j gidx)
        (getSubgraph j i).id = .ok t1 ∧
      g.flag = t1.flag ∧ g.group_deps = t1.group_deps ∧
      g.group_groupid = u16 gidx := by
  rw [group_init_tcb_eq] at h
  rcases hc : config_tcb_deps j.subgraphs j.start_group_id (group_pre_tcb j gidx)
      (getSubgraph j i).id with e | t1
  · rw [hc] at h; cases h
  · rw [hc] at h
    change Except.ok (group_post_tcb j i t1) = Except.ok g at h
    injection h with h
    refine ⟨t1, rfl, by rw [← h]; rfl, by rw [← h]; rfl, ?_⟩
    rw [← h]
    show t1.group_groupid = u16 gidx
    rw [(config_deps_preserves hc).1]
    rfl

theorem group_init_tcb_err {j : Job} {gidx i : Nat} {e : AipuStatus}
    (h : config_tcb_deps j.subgraphs j.start_group_id (group_pre_tcb j gidx)
      (getSubgraph j i).id = .error e) :
    group_init_tcb j gidx i = .error e := by
  rw [group_init_tcb_eq, h]
  rfl

theorem group_writes_succ_inv {j : Job} {grid_id n : Nat} {ws : List (Nat × Tcb)}
    (h : group_writes j grid_id (n + 1) = .ok ws) :
    ∃ pre g ts, group_writes j grid_id n = .ok pre ∧
      group_init_tcb j (j.start_group_id + n) n = .ok g ∧
      task_tcb_writes j (j.start_group_id + n) (getSubgraph j n).id grid_id
        j.task_per_sg 0 = .ok ts ∧
      ws = pre ++ (1 + (j.task_per_sg + 1) * n, g) :: ts := by
  rw [group_writes] at h
  rcases hpre : group_writes j grid_id n with e | pre
  · rw [hpre] at h; cases h
  · rw [hpre] at h
    rcases hg : group_init_tcb j (j.start_group_id + n) n with e | g
    · rw [hg] at h; cases h
    · rw [hg] at h
      rcases hts : task_tcb_writes j (j.start_group_id + n) (getSubgraph j n).id grid_id
          j.task_per_sg 0 with e | ts
      · rw [hts] at h; cases h
      · rw [hts] at h
        change Except.ok (pre ++ (1 + (j.task_per_sg + 1) * n, g) :: ts) = Except.ok ws at h
        injection h with h
        exact ⟨pre, g, ts, rfl, rfl, rfl, h.symm⟩

/-- Replaying the chain writes of the first `n` subgraph-loop iterations:
indices outside `[1, (task_per_sg+1)*n]` are untouched, the group-init TCB
of iteration `k` lands at index `1 + (task_per_sg+1)*k`, and task `t` of
iteration `k` lands at index `2 + (task_per_sg+1)*k + t` (given that
subgraph ids equal their positions). -/
theorem group_writes_mem (j : Job) (grid_id : Nat)
    (hid : ∀ k, k < j.subgraphs.length → (getSubgraph j k).id = k) :
    ∀ n ws, n ≤ j.subgraphs.length → group_writes j grid_id n = .ok ws →
    (∀ m0 idx, (idx = 0 ∨ (j.task_per_sg + 1) * n < idx) →
      tcb_apply m0 ws idx = m0 idx) ∧
    (∀ m0 k, k < n →
      (∃ gt, group_init_tcb j (j.start_group_id + k) k = .ok gt ∧
        tcb_apply m0 ws (1 + (j.task_per_sg + 1) * k) = gt) ∧
      (∀ t, t < j.task_per_sg → ∃ tt,
        setup_task_tcb j (j.start_group_id + k) k grid_id t = .ok tt ∧
        tcb_apply m0 ws (2 + (j.task_per_sg + 1) * k + t) = tt)) := by
  intro n
  induction n with
  | zero =>
    intro ws _ h
    rw [group_writes] at h
    cases h
    exact ⟨fun m0 idx _ => rfl, fun m0 k hk => by omega⟩
  | succ n ih =>
    intro ws hn h
    obtain ⟨pre, g, ts, hpre, hg, hts, hws⟩ := group_writes_succ_inv h
    subst hws
    obtain ⟨ihout, ihin⟩ := ih pre (by omega) hpre
    rw [hid n (by omega)] at hts
    obtain ⟨touts, tins⟩ := task_writes_mem j (j.start_group_id + n) n grid_id
      j.task_per_sg 0 ts hts
    have happ : ∀ (m0 : Nat → Tcb) idx,
        tcb_apply m0 (pre ++ (1 + (j.task_per_sg + 1) * n, g) :: ts) idx =
        tcb_apply (fun i2 => if i2 = 1 + (j.task_per_sg + 1) * n then g
          else tcb_apply m0 pre i2) ts idx := by
      intro m0 idx
      rw [tcb_apply_append, tcb_apply_cons]
    have e2 : n * (j.task_per_sg + 1) = (j.task_per_sg + 1) * n := by ring
    constructor
    · intro m0 idx hidx
      have e1 : (j.task_per_sg + 1) * (n + 1) =
        (j.task_per_sg + 1) * n + j.task_per_sg + 1 := by ring
      rw [happ]
      rw [touts _ idx (by omega)]
      rw [if_neg (by omega)]
      exact ihout m0 idx (by omega)
    · intro m0 k hk
      by_cases hkn : k < n
      · have e5 : (j.task_per_sg + 1) * (k + 1) ≤ (j.task_per_sg + 1) * n :=
          Nat.mul_le_mul_left _ (by omega)
        have e6 : (j.task_per_sg + 1) * (k + 1) =
          (j.task_per_sg + 1) * k + j.task_per_sg + 1 := by ring
        constructor
        · obtain ⟨⟨gt, hgt, hval⟩, _⟩ := ihin m0 k hkn
          refine ⟨gt, hgt, ?_⟩
          rw [happ]
          rw [touts _ _ (by omega)]
          rw [if_neg (by omega)]
          exact hval
        · intro t ht
          obtain ⟨_, htasks⟩ := ihin m0 k hkn
          obtain ⟨tt, htt, hval⟩ := htasks t ht
          refine ⟨tt, htt, ?_⟩
          rw [happ]
          rw [touts _ _ (by omega)]
          rw [if_neg (by omega)]
          exact hval
      · have hk' : k = n := by omega
        subst hk'
        constructor
        · refine ⟨g, hg, ?_⟩
          rw [happ]
          rw [touts _ _ (by omega)]
          rw [if_pos rfl]
        · intro t ht
          obtain ⟨tt, htt, hval⟩ := tins
            (fun i2 => if i2 = 1 + (j.task_per_sg + 1) * k then g
              else tcb_apply m0 pre i2) t (Nat.zero_le t) (by omega)
          refine ⟨tt, htt, ?_⟩
          rw [happ]
          rw [show k * (j.task_per_sg + 1) = (j.task_per_sg + 1) * k from by ring] at hval
          exact hval

theorem setup_tcb_chain_inv {j : Job} {allws : List (Nat × Tcb)}
    (h : setup_tcb_chain j = .ok allws) :
    ∃ ws, group_writes j j.grid_id j.subgraphs.length = .ok ws ∧
      allws = (0, grid_init_tcb j) :: ws := by
  rw [setup_tcb_chain] at h
  rcases hw : group_writes j j.grid_id j.subgraphs.length with e | ws
  · rw [hw] at h; cases h
  · rw [hw] at h
    change Except.ok ((0, grid_init_tcb j) :: ws) = Except.ok allws at h
    injection h with h
    exact ⟨ws, rfl, h.symm⟩

/- ----------------------------------------------------------------
Error-shape lemmas: the only error the chain pipeline produces is
AIPU_STATUS_ERROR_INVALID_GBIN (from config_tcb_deps).
---------------------------------------------------------------- -/

theorem dep_loop_err_shape (ps : List Nat) (start : Nat) :
    ∀ rem i tcb e,
    dep_loop ps start rem i tcb = .error e → e = .INVALID_GBIN := by
  intro rem
  induction rem with
  | zero =>
    intro i tcb e h
    cases h
  | succ rem ih =>
    intro i tcb e h
    rw [dep_loop] at h
    by_cases hbad : ps.getD i 0 > 0x7fff
    · simp only [hbad, if_pos] at h
      cases h
      rfl
    · simp only [hbad, if_neg, not_false_iff] at h
      exact ih (i + 1) _ e h

theorem config_deps_err_shape {gs : List Subgraph} {start : Nat} {tcb : Tcb} {sgid : Nat}
    {e : AipuStatus} (h : config_tcb_deps gs start tcb sgid = .error e) :
    e = .INVALID_GBIN := by
  simp only [config_tcb_deps, SUBG_DEPEND_NONE, SUBG_DEPEND_PREALL] at h
  split at h
  · cases h
  · split at h
    · exact dep_loop_err_shape _ _ _ 0 _ e h
    · split at h
      · cases h
      · cases h
        rfl

theorem setup_task_tcb_err_shape {j : Job} {gidx sg_id grid_id t : Nat} {e : AipuStatus}
    (h : setup_task_tcb j gidx sg_id grid_id t = .error e) : e = .INVALID_GBIN := by
  rw [setup_task_tcb_eq] at h
  by_cases h0 : t = 0
  · rw [if_pos h0] at h
    rcases hc : config_tcb_deps j.subgraphs j.start_group_id (task_pre_tcb j sg_id t) sg_id
      with e' | t1
    · rw [hc] at h
      change Except.error e' = Except.error e at h
      injection h with h
      exact h ▸ config_deps_err_shape hc
    · rw [hc] at h
      change Except.ok (task_post_tcb j gidx sg_id grid_id t t1) = Except.error e at h
      cases h
  · rw [if_neg h0] at h
    change Except.ok (task_post_tcb j gidx sg_id grid_id t (task_pre_tcb j sg_id t)) =
      Except.error e at h
    cases h

theorem task_writes_err_shape (j : Job) (gidx sg_id grid_id : Nat) :
    ∀ rem t e,
    task_tcb_writes j gidx sg_id grid_id rem t = .error e → e = .INVALID_GBIN := by
  intro rem
  induction rem with
  | zero =>
    intro t e h
    cases h
  | succ rem ih =>
    intro t e h
    rw [task_tcb_writes] at h
    rcases hs : setup_task_tcb j gidx sg_id grid_id t with e' | tcb
    · rw [hs] at h
      change Except.error e' = Except.error e at h
      injection h with h
      exact h ▸ setup_task_tcb_err_shape hs
    · rw [hs] at h
      rcases hr : task_tcb_writes j gidx sg_id grid_id rem (t + 1) with e' | rest
      · rw [hr] at h
        change Except.error e' = Except.error e at h
        injection h with h
        exact h ▸ ih (t + 1) e' hr
      · rw [hr] at h
        change Except.ok ((2 + sg_id * (j.task_per_sg + 1) + t, tcb) :: rest) =
          Except.error e at h
        cases h

theorem group_init_err_shape {j : Job} {gidx i : Nat} {e : AipuStatus}
    (h : group_init_tcb j gidx i = .error e) : e = .INVALID_GBIN := by
  rw [group_init_tcb_eq] at h
  rcases hc : config_tcb_deps j.subgraphs j.start_group_id (group_pre_tcb j gidx)
      (getSubgraph j i).id with e' | t1
  · rw [hc] at h
    change Except.error e' = Except.error e at h
    injection h with h
    exact h ▸ config_deps_err_shape hc
  · rw [hc] at h
    change Except.ok (group_post_tcb j i t1) = Except.error e at h
    cases h

theorem group_writes_err_shape (j : Job) (grid_id : Nat) :
    ∀ n e, group_writes j grid_id n = .error e → e = .INVALID_GBIN := by
  intro n
  induction n with
  | zero =>
    intro e h
    rw [group_writes] at h
    cases h
  | succ n ih =>
    intro e h
    rw [group_writes] at h
    rcases hpre : group_writes j grid_id n with e' | pre
    · rw [hpre] at h
      change Except.error e' = Except.error e at h
      injection h with h
      exact h ▸ ih e' hpre
    · rw [hpre] at h
      rcases hg : group_init_tcb j (j.start_group_id + n) n with e' | g
      · rw [hg] at h
        change Except.error e' = Except.error e at h
        injection h with h
        exact h ▸ group_init_err_shape hg
      · rw [hg] at h
        rcases hts : task_tcb_writes j (j.start_group_id + n) (getSubgraph j n).id grid_id
            j.task_per_sg 0 with e' | ts
        · rw [hts] at h
          change Except.error e' = Except.error e at h
          injection h with h
          exact h ▸ task_writes_err_shape j _ _ grid_id j.task_per_sg 0 e' hts
        · rw [hts] at h
          change Except.ok (pre ++ (1 + (j.task_per_sg + 1) * n, g) :: ts) =
            Except.error e at h
          cases h

theorem setup_tcb_chain_err_shape {j : Job} {e : AipuStatus}
    (h : setup_tcb_chain j = .error e) : e = .INVALID_GBIN := by
  rw [setup_tcb_chain] at h
  rcases hw : group_writes j j.grid_id j.subgraphs.length with e' | ws
  · rw [hw] at h
    change Except.error e' = Except.error e at h
    injection h with h
    exact h ▸ group_writes_err_shape j j.grid_id _ e' hw
  · rw [hw] at h
    change Except.ok ((0, grid_init_tcb j) :: ws) = Except.error e at h
    cases h

/- ----------------------------------------------------------------
Flag values of the three TCB kinds
---------------------------------------------------------------- -/

theorem setup_gm_sync_flag (j : Job) (tcb : Tcb) :
    (setup_gm_sync_from_ddr j tcb).flag = tcb.flag := by
  unfold setup_gm_sync_from_ddr
  repeat' split
  all_goals simp

theorem grid_init_tcb_flag (j : Job) :
    (grid_init_tcb j).flag = TCB_FLAG_TASK_TYPE_GRID_INIT ||| TCB_FLAG_L2D_FLUSH := by
  unfold grid_init_tcb
  rw [setup_gm_sync_flag]

theorem group_init_tcb_flag {j : Job} {gidx i : Nat} {g : Tcb}
    (h : group_init_tcb j gidx i = .ok g) :
    ∃ d, (d = 0 ∨ d = 16 ∨ d = 32) ∧
      g.flag = (TCB_FLAG_TASK_TYPE_GROUP_INIT ||| TCB_FLAG_GRID_INIT) ||| d := by
  obtain ⟨t1, hc, hf, _, _⟩ := group_init_tcb_inv h
  rcases config_deps_flag hc with h1 | h1 | h1
  · exact ⟨0, Or.inl rfl, by rw [hf, h1]; simp [group_pre_tcb]⟩
  · exact ⟨16, Or.inr (Or.inl rfl), by rw [hf, h1]; rfl⟩
  · exact ⟨32, Or.inr (Or.inr rfl), by rw [hf, h1]; rfl⟩

theorem task_flag_base_eq (j : Job) (sg_id t : Nat) :
    task_flag_base j sg_id t =
      if sg_id = j.subgraphs.length - 1 ∧ t = j.task_per_sg - 1 then 194
      else if t = j.task_per_sg - 1 then 66 else 2 := by
  unfold task_flag_base
  rcases Decidable.em (sg_id = j.subgraphs.length - 1 ∧ t = j.task_per_sg - 1) with hc | hc
  · rw [if_pos hc, if_pos hc.2, if_pos hc]
    rfl
  · rw [if_neg hc, if_neg hc]
    by_cases ht : t = j.task_per_sg - 1
    · rw [if_pos ht, if_pos ht]
      rfl
    · rw [if_neg ht, if_neg ht]
      rfl

theorem task_bits (f d : Nat) (hf : f = 2 ∨ f = 66 ∨ f = 194)
    (hd : d = 0 ∨ d = 16 ∨ d = 32) :
    TCB_FLAG_TASK_TYPE (f ||| d) = TCB_FLAG_TASK_TYPE_TASK ∧
    (((f ||| d) &&& TCB_FLAG_END_TYPE_GROUP_END ≠ 0) ↔ (f = 66 ∨ f = 194)) ∧
    (((f ||| d) &&& TCB_FLAG_END_TYPE_GRID_END ≠ 0) ↔ f = 194) ∧
    ((f ||| d) &&& TCB_FLAG_END_TYPE_POOL_END = 0) ∧
    TCB_FLAG_DEP_TYPE (f ||| d) = d := by
  rcases hf with rfl | rfl | rfl <;> rcases hd with rfl | rfl | rfl <;> decide

theorem group_bits (d : Nat) (hd : d = 0 ∨ d = 16 ∨ d = 32) :
    TCB_FLAG_TASK_TYPE ((TCB_FLAG_TASK_TYPE_GROUP_INIT ||| TCB_FLAG_GRID_INIT) ||| d) =
      TCB_FLAG_TASK_TYPE_GROUP_INIT ∧
    TCB_FLAG_DEP_TYPE ((TCB_FLAG_TASK_TYPE_GROUP_INIT ||| TCB_FLAG_GRID_INIT) ||| d) = d := by
  rcases hd with rfl | rfl | rfl <;> decide

/- ----------------------------------------------------------------
Write-count lemmas
---------------------------------------------------------------- -/

theorem task_writes_len (j : Job) (gidx sg_id grid_id : Nat) :
    ∀ rem t ts,
    task_tcb_writes j gidx sg_id grid_id rem t = .ok ts →
    ts.length = rem := by
  intro rem
  induction rem with
  | zero =>
    intro t ts h
    cases h
    rfl
  | succ rem ih =>
    intro t ts h
    rw [task_tcb_writes] at h
    rcases hs : setup_task_tcb j gidx sg_id grid_id t with e | tcb
    · rw [hs] at h; cases h
    · rw [hs] at h
      rcases hr : task_tcb_writes j gidx sg_id grid_id rem (t + 1) with e | rest
      · rw [hr] at h; cases h
      · rw [hr] at h
        change Except.ok ((2 + sg_id * (j.task_per_sg + 1) + t, tcb) :: rest) =
          Except.ok ts at h
        injection h with h
        subst h
        simp [ih (t + 1) rest hr]

theorem group_writes_len (j : Job) (grid_id : Nat) :
    ∀ n ws, group_writes j grid_id n = .ok ws →
    ws.length = (j.task_per_sg + 1) * n := by
  intro n
  induction n with
  | zero =>
    intro ws h
    rw [group_writes] at h
    cases h
    rfl
  | succ n ih =>
    intro ws h
    obtain ⟨pre, g, ts, hpre, hg, hts, hws⟩ := group_writes_succ_inv h
    subst hws
    have h1 := ih pre hpre
    have h2 := task_writes_len j (j.start_group_id + n) (getSubgraph j n).id grid_id
      j.task_per_sg 0 ts hts
    simp [h1, h2]
    ring

/- ----------------------------------------------------------------
Claim C1
---------------------------------------------------------------- -/

/-- C1: for every job built by `init()` from a graph with `S ≥ 1`
subgraphs and `T = 4` tasks per subgraph (and topologically-sorted
subgraph ids `id = position`, the layout `init_per_task_data` assumes),
the TCB buffer holds exactly `1 + S*(T+1)` TCBs: index 0 is GRID_INIT,
indices `1 + 5k` (`k < S`) are GROUP_INIT, every other index holds a TASK
TCB; the last task of every subgraph carries END_TYPE_GROUP_END, the last
task of the last subgraph additionally carries END_TYPE_GRID_END, and no
other TASK TCB carries any end flag (nor is POOL_END ever set). -/
theorem c1_tcb_chain_layout (j : Job) (allws : List (Nat × Tcb))
    (hT : j.task_per_sg = 4) (hS : 1 ≤ j.subgraphs.length)
    (hid : ∀ k, k < j.subgraphs.length → (getSubgraph j k).id = k)
    (hok : setup_tcb_chain j = .ok allws) :
    allws.length = 1 + j.subgraphs.length * 5 ∧
    TCB_FLAG_TASK_TYPE (tcb_mem allws 0).flag = TCB_FLAG_TASK_TYPE_GRID_INIT ∧
    (∀ k, k < j.subgraphs.length →
      TCB_FLAG_TASK_TYPE (tcb_mem allws (1 + 5 * k)).flag =
        TCB_FLAG_TASK_TYPE_GROUP_INIT) ∧
    (∀ idx, idx < 1 + j.subgraphs.length * 5 → idx ≠ 0 →
      (¬ ∃ k, k < j.subgraphs.length ∧ idx = 1 + 5 * k) →
      TCB_FLAG_TASK_TYPE (tcb_mem allws idx).flag = TCB_FLAG_TASK_TYPE_TASK) ∧
    (∀ k t, k < j.subgraphs.length → t < 4 →
      (((tcb_mem allws (2 + 5 * k + t)).flag &&& TCB_FLAG_END_TYPE_GROUP_END ≠ 0) ↔
        t = 3) ∧
      (((tcb_mem allws (2 + 5 * k + t)).flag &&& TCB_FLAG_END_TYPE_GRID_END ≠ 0) ↔
        (k = j.subgraphs.length - 1 ∧ t = 3)) ∧
      ((tcb_mem allws (2 + 5 * k + t)).flag &&& TCB_FLAG_END_TYPE_POOL_END = 0)) := by
  obtain ⟨ws, hws, hall⟩ := setup_tcb_chain_inv hok
  have h5 : j.task_per_sg + 1 = 5 := by omega
  obtain ⟨hout, hin⟩ := group_writes_mem j j.grid_id hid j.subgraphs.length ws
    (le_refl _) hws
  rw [h5] at hout hin
  subst hall
  have hmem : ∀ idx, tcb_mem ((0, grid_init_tcb j) :: ws) idx =
      tcb_apply (fun i2 => if i2 = 0 then grid_init_tcb j else ({} : Tcb)) ws idx := by
    intro idx
    rw [tcb_mem, tcb_apply_cons]
  have hlen : ws.length = 5 * j.subgraphs.length := by
    have hl := group_writes_len j j.grid_id j.subgraphs.length ws hws
    rw [h5] at hl
    exact hl
  refine ⟨by simp [hlen]; omega, ?_, ?_, ?_, ?_⟩
  · rw [hmem 0, hout _ 0 (Or.inl rfl)]
    rw [if_pos rfl, grid_init_tcb_flag]
    decide
  · intro k hk
    obtain ⟨⟨gt, hgt, hval⟩, _⟩ := hin
      (fun i2 => if i2 = 0 then grid_init_tcb j else ({} : Tcb)) k hk
    rw [hmem, hval]
    obtain ⟨d, hd, hgf⟩ := group_init_tcb_flag hgt
    rw [hgf]
    exact (group_bits d hd).1
  · intro idx hidx hidx0 hng
    have hk5 : ∃ k t, k < j.subgraphs.length ∧ t < 4 ∧ idx = 2 + 5 * k + t := by
      refine ⟨(idx - 1) / 5, (idx - 1) % 5 - 1, ?_, ?_, ?_⟩
      · exact (Nat.div_lt_iff_lt_mul (show 0 < 5 by decide)).mpr (by omega)
      · have := Nat.mod_lt (idx - 1) (show 0 < 5 by decide)
        omega
      · have hdm := Nat.div_add_mod (idx - 1) 5
        have hr0 : (idx - 1) % 5 ≠ 0 := by
          intro hr
          apply hng
          refine ⟨(idx - 1) / 5, ?_, ?_⟩
          · exact (Nat.div_lt_iff_lt_mul (show 0 < 5 by decide)).mpr (by omega)
          · omega
        omega
    obtain ⟨k, t, hk, ht, hidxeq⟩ := hk5
    subst hidxeq
    obtain ⟨_, htasks⟩ := hin
      (fun i2 => if i2 = 0 then grid_init_tcb j else ({} : Tcb)) k hk
    obtain ⟨tt, htt, hval⟩ := htasks t (by omega)
    rw [hmem, hval]
    obtain ⟨d, hd, _, hftt, _⟩ := setup_task_tcb_flag htt
    rw [hftt, task_flag_base_eq]
    refine (task_bits _ d ?_ hd).1
    rw [hT]
    split
    · exact Or.inr (Or.inr rfl)
    · split
      · exact Or.inr (Or.inl rfl)
      · exact Or.inl rfl
  · intro k t hk ht
    obtain ⟨_, htasks⟩ := hin
      (fun i2 => if i2 = 0 then grid_init_tcb j else ({} : Tcb)) k hk
    obtain ⟨tt, htt, hval⟩ := htasks t (by omega)
    rw [hmem, hval]
    obtain ⟨d, hd, _, hftt, _⟩ := setup_task_tcb_flag htt
    rw [hftt, task_flag_base_eq, hT]
    by_cases hlast : k = j.subgraphs.length - 1 ∧ t = 4 - 1
    · rw [if_pos hlast]
      obtain ⟨hb1, hb2, hb3, hb4, _⟩ := task_bits 194 d (Or.inr (Or.inr rfl)) hd
      refine ⟨?_, ?_, hb4⟩
      · rw [hb2]
        constructor
        · intro _; omega
        · intro _; exact Or.inr rfl
      · rw [hb3]
        constructor
        · intro _; exact ⟨hlast.1, by omega⟩
        · intro _; rfl
    · by_cases htl : t = 4 - 1
      · rw [if_neg hlast, if_pos htl]
        obtain ⟨hb1, hb2, hb3, hb4, _⟩ := task_bits 66 d (Or.inr (Or.inl rfl)) hd
        refine ⟨?_, ?_, hb4⟩
        · rw [hb2]
          constructor
          · intro _; omega
          · intro _; exact Or.inl rfl
        · rw [hb3]
          constructor
          · intro h66; cases h66
          · intro hcon
            exact absurd ⟨hcon.1, by omega⟩ hlast
      · rw [if_neg hlast, if_neg htl]
        obtain ⟨hb1, hb2, hb3, hb4, _⟩ := task_bits 2 d (Or.inl rfl) hd
        refine ⟨?_, ?_, hb4⟩
        · rw [hb2]
          constructor
          · intro h2
            rcases h2 with h2 | h2 <;> cases h2
          · intro h3; omega
        · rw [hb3]
          constructor
          · intro h2; cases h2
          · intro hcon; omega

/-- Concrete single-subgraph job exercising the chain builder. -/
def jC1 : Job := { subgraphs := [{ id := 0 }], task_per_sg := 4 }

/-- The TCB write log `setup_tcb_chain` produces for `jC1`. -/
def allwsC1 : List (Nat × Tcb) := (setup_tcb_chain jC1).toOption.getD []

/-- Witness for C1 at the concrete job `jC1` (`S = 1`, `T = 4`). -/
theorem c1_tcb_chain_layout_witness :
    allwsC1.length = 1 + jC1.subgraphs.length * 5 ∧
    TCB_FLAG_TASK_TYPE (tcb_mem allwsC1 0).flag = TCB_FLAG_TASK_TYPE_GRID_INIT ∧
    (∀ k, k < jC1.subgraphs.length →
      TCB_FLAG_TASK_TYPE (tcb_mem allwsC1 (1 + 5 * k)).flag =
        TCB_FLAG_TASK_TYPE_GROUP_INIT) ∧
    (∀ idx, idx < 1 + jC1.subgraphs.length * 5 → idx ≠ 0 →
      (¬ ∃ k, k < jC1.subgraphs.length ∧ idx = 1 + 5 * k) →
      TCB_FLAG_TASK_TYPE (tcb_mem allwsC1 idx).flag = TCB_FLAG_TASK_TYPE_TASK) ∧
    (∀ k t, k < jC1.subgraphs.length → t < 4 →
      (((tcb_mem allwsC1 (2 + 5 * k + t)).flag &&& TCB_FLAG_END_TYPE_GROUP_END ≠ 0) ↔
        t = 3) ∧
      (((tcb_mem allwsC1 (2 + 5 * k + t)).flag &&& TCB_FLAG_END_TYPE_GRID_END ≠ 0) ↔
        (k = jC1.subgraphs.length - 1 ∧ t = 3)) ∧
      ((tcb_mem allwsC1 (2 + 5 * k + t)).flag &&& TCB_FLAG_END_TYPE_POOL_END = 0)) :=
  c1_tcb_chain_layout jC1 allwsC1 rfl (by decide)
    (fun k hk => by
      have hk0 : k = 0 := by simpa [jC1] using hk
      subst hk0
      rfl)
    (by rfl)

/- ----------------------------------------------------------------
Claim C2
---------------------------------------------------------------- -/

theorem mod65536_and_7fff (x : Nat) : (x % 65536) &&& 0x7FFF = x &&& 0x7FFF := by
  have h1 := Nat.and_pow_two_sub_one_eq_mod (x % 65536) 15
  have h2 := Nat.and_pow_two_sub_one_eq_mod x 15
  norm_num at h1 h2
  rw [h1, h2]

theorem dep_word_eq (p start : Nat) :
    dep_word p start = EN_GROUP_DEPEND ||| ((p + start) &&& 0x7FFF) := by
  unfold dep_word
  rw [mod65536_and_7fff]

/-- Inversion of `config_tcb_deps` in the `1 ... 4` case for a successful
run: the GROUP dependency bits are set and every listed dependency slot
holds the encoded word. -/
theorem config_deps_group_inv {gs : List Subgraph} {start : Nat} {tcb : Tcb} {sgid : Nat}
    {t' : Tcb} (h1 : 1 ≤ (gs.getD sgid {}).precursor_cnt)
    (h2 : (gs.getD sgid {}).precursor_cnt ≤ 4)
    (h : config_tcb_deps gs start tcb sgid = .ok t') :
    t'.flag = tcb.flag ||| TCB_FLAG_DEP_TYPE_GROUP ∧
    (∀ k, k < (gs.getD sgid {}).precursor_cnt.toNat → k < tcb.group_deps.length →
      t'.group_deps.getD k 0 = dep_word ((gs.getD sgid {}).precursors.getD k 0) start) := by
  simp only [config_tcb_deps, SUBG_DEPEND_NONE, SUBG_DEPEND_PREALL] at h
  rw [if_neg (by omega), if_pos ⟨h1, h2⟩] at h
  obtain ⟨hf, _, _, hin⟩ := dep_loop_spec _ _ _ 0 _ t' h
  exact ⟨hf, fun k hk1 hk2 => hin k (Nat.zero_le k) (by omega) (by simpa using hk2)⟩

/-- Inversion of `setup_task_tcb` at `task_id = 0`: the result's flag and
dependency slots come from `config_tcb_deps` on the pre-TCB. -/
theorem setup_task_tcb_zero_inv {j : Job} {gidx sg_id grid_id : Nat} {tt : Tcb}
    (h : setup_task_tcb j gidx sg_id grid_id 0 = .ok tt) :
    ∃ t1, config_tcb_deps j.subgraphs j.start_group_id (task_pre_tcb j sg_id 0) sg_id =
        .ok t1 ∧ tt.flag = t1.flag ∧ tt.group_deps = t1.group_deps := by
  rw [setup_task_tcb_eq] at h
  rw [if_pos rfl] at h
  rcases hc : config_tcb_deps j.subgraphs j.start_group_id (task_pre_tcb j sg_id 0) sg_id
    with e | t1
  · rw [hc] at h; cases h
  · rw [hc] at h
    change Except.ok (task_post_tcb j gidx sg_id grid_id 0 t1) = Except.ok tt at h
    injection h with h
    obtain ⟨hf, hd, _⟩ := task_post_tcb_flag j gidx sg_id grid_id 0 t1
    exact ⟨t1, rfl, by rw [← h, hf], by rw [← h, hd]⟩

/-- A successful run of the subgraph loop implies every group-init TCB
was built successfully. -/
theorem group_writes_ok_group_init (j : Job) (grid_id : Nat) :
    ∀ n ws, group_writes j grid_id n = .ok ws →
    ∀ k, k < n → ∃ g, group_init_tcb j (j.start_group_id + k) k = .ok g := by
  intro n
  induction n with
  | zero =>
    intro ws _ k hk
    omega
  | succ n ih =>
    intro ws h k hk
    obtain ⟨pre, g, ts, hpre, hg, _, _⟩ := group_writes_succ_inv h
    by_cases hkn : k < n
    · exact ih pre hpre k hkn
    · have : k = n := by omega
      subst this
      exact ⟨g, hg⟩

/-- Error propagation: if `config_tcb_deps` fails for the GROUP_INIT TCB
of loop iteration `i`, the whole chain build fails with INVALID_GBIN. -/
theorem chain_fails_of_config_err (j : Job) (i : Nat)
    (hi : i < j.subgraphs.length)
    (herr : ∀ tcb, config_tcb_deps j.subgraphs j.start_group_id tcb
      (getSubgraph j i).id = .error .INVALID_GBIN) :
    setup_tcb_chain j = .error .INVALID_GBIN := by
  rcases hc : setup_tcb_chain j with e | allws
  · rw [setup_tcb_chain_err_shape hc]
  · exfalso
    obtain ⟨ws, hws, _⟩ := setup_tcb_chain_inv hc
    obtain ⟨g, hg⟩ := group_writes_ok_group_init j j.grid_id j.subgraphs.length ws hws i hi
    rw [group_init_tcb_err (herr (group_pre_tcb j (j.start_group_id + i)))] at hg
    cases hg

/-- C2: for every subgraph `i` of a job, the dependency flags written into
its GROUP_INIT TCB, and into task 0 of the subgraph — the only task
carrying dependency flags — encode `precursor_cnt`: 0 yields
DEP_TYPE_NONE; 1..4 yields DEP_TYPE_GROUP with
`group_deps[k] = EN_GROUP_DEPEND | ((precursors[k] + start_group_id) &
0x7FFF)` and any listed precursor above `0x7fff` makes the build fail with
INVALID_GBIN; −1 (PRE_ALL) yields DEP_TYPE_PRE_ALL; any other count makes
the build fail with INVALID_GBIN. -/
theorem c2_dependency_encoding (j : Job) (i : Nat)
    (hT : j.task_per_sg = 4)
    (hid : ∀ k, k < j.subgraphs.length → (getSubgraph j k).id = k)
    (hi : i < j.subgraphs.length) :
    (∀ allws, setup_tcb_chain j = .ok allws →
      ((getSubgraph j i).precursor_cnt = 0 →
        TCB_FLAG_DEP_TYPE (tcb_mem allws (1 + 5 * i)).flag = TCB_FLAG_DEP_TYPE_NONE ∧
        TCB_FLAG_DEP_TYPE (tcb_mem allws (2 + 5 * i)).flag = TCB_FLAG_DEP_TYPE_NONE) ∧
      ((1 ≤ (getSubgraph j i).precursor_cnt ∧ (getSubgraph j i).precursor_cnt ≤ 4) →
        TCB_FLAG_DEP_TYPE (tcb_mem allws (1 + 5 * i)).flag = TCB_FLAG_DEP_TYPE_GROUP ∧
        TCB_FLAG_DEP_TYPE (tcb_mem allws (2 + 5 * i)).flag = TCB_FLAG_DEP_TYPE_GROUP ∧
        (∀ k, k < (getSubgraph j i).precursor_cnt.toNat →
          (tcb_mem allws (1 + 5 * i)).group_deps.getD k 0 =
            (EN_GROUP_DEPEND |||
              (((getSubgraph j i).precursors.getD k 0 + j.start_group_id) &&& 0x7FFF)) ∧
          (tcb_mem allws (2 + 5 * i)).group_deps.getD k 0 =
            (EN_GROUP_DEPEND |||
              (((getSubgraph j i).precursors.getD k 0 + j.start_group_id) &&& 0x7FFF)))) ∧
      ((getSubgraph j i).precursor_cnt = -1 →
        TCB_FLAG_DEP_TYPE (tcb_mem allws (1 + 5 * i)).flag = TCB_FLAG_DEP_TYPE_PRE_ALL ∧
        TCB_FLAG_DEP_TYPE (tcb_mem allws (2 + 5 * i)).flag = TCB_FLAG_DEP_TYPE_PRE_ALL) ∧
      (∀ t, 1 ≤ t → t < 4 →
        TCB_FLAG_DEP_TYPE (tcb_mem allws (2 + 5 * i + t)).flag =
          TCB_FLAG_DEP_TYPE_NONE)) ∧
    ((1 ≤ (getSubgraph j i).precursor_cnt ∧ (getSubgraph j i).precursor_cnt ≤ 4 ∧
        ∃ k, k < (getSubgraph j i).precursor_cnt.toNat ∧
          (getSubgraph j i).precursors.getD k 0 > 0x7fff) →
      setup_tcb_chain j = .error .INVALID_GBIN) ∧
    (((getSubgraph j i).precursor_cnt < -1 ∨ 4 < (getSubgraph j i).precursor_cnt) →
      setup_tcb_chain j = .error .INVALID_GBIN) := by
  have h5 : j.task_per_sg + 1 = 5 := by omega
  refine ⟨?_, ?_, ?_⟩
  · intro allws hok
    obtain ⟨ws, hws, hall⟩ := setup_tcb_chain_inv hok
    obtain ⟨hout, hin⟩ := group_writes_mem j j.grid_id hid j.subgraphs.length ws
      (le_refl _) hws
    rw [h5] at hout hin
    subst hall
    have hmem : ∀ idx, tcb_mem ((0, grid_init_tcb j) :: ws) idx =
        tcb_apply (fun i2 => if i2 = 0 then grid_init_tcb j else ({} : Tcb)) ws idx := by
      intro idx
      rw [tcb_mem, tcb_apply_cons]
    obtain ⟨⟨gt, hgt, hgval⟩, htasks⟩ := hin
      (fun i2 => if i2 = 0 then grid_init_tcb j else ({} : Tcb)) i hi
    obtain ⟨tt0, htt0, htval0⟩ := htasks 0 (by omega)
    obtain ⟨t1, hcfg1, hgf, hgd, _⟩ := group_init_tcb_inv hgt
    obtain ⟨t2, hcfg2, htf, htd⟩ := setup_task_tcb_zero_inv htt0
    rw [hid i hi] at hcfg1
    have hmg : tcb_mem ((0, grid_init_tcb j) :: ws) (1 + 5 * i) = gt := by
      rw [hmem]; exact hgval
    have hmt : tcb_mem ((0, grid_init_tcb j) :: ws) (2 + 5 * i) = tt0 := by
      rw [hmem]
      have := htval0
      simpa using this
    refine ⟨?_, ?_, ?_, ?_⟩
    · intro h0
      rw [config_deps_none h0] at hcfg1 hcfg2
      injection hcfg1 with hcfg1
      injection hcfg2 with hcfg2
      constructor
      · rw [hmg, hgf, ← hcfg1, group_pre_tcb_flag]
        decide
      · rw [hmt, htf, ← hcfg2]
        have hb : (task_pre_tcb j i 0).flag = task_flag_base j i 0 ||| 0 := by
          rw [Nat.or_zero]; exact (task_pre_tcb_flag j i 0).1
        rw [hb, task_flag_base_eq]
        refine (task_bits _ 0 ?_ (Or.inl rfl)).2.2.2.2
        split
        · exact Or.inr (Or.inr rfl)
        · split
          · exact Or.inr (Or.inl rfl)
          · exact Or.inl rfl
    · rintro ⟨hc1, hc4⟩
      obtain ⟨hf1, hdeps1⟩ := config_deps_group_inv hc1 hc4 hcfg1
      obtain ⟨hf2, hdeps2⟩ := config_deps_group_inv hc1 hc4 hcfg2
      refine ⟨?_, ?_, ?_⟩
      · rw [hmg, hgf, hf1, group_pre_tcb_flag]
        decide
      · rw [hmt, htf, hf2]
        have hb : (task_pre_tcb j i 0).flag = task_flag_base j i 0 := (task_pre_tcb_flag j i 0).1
        rw [hb, task_flag_base_eq]
        refine (task_bits _ 16 ?_ (Or.inr (Or.inl rfl))).2.2.2.2
        split
        · exact Or.inr (Or.inr rfl)
        · split
          · exact Or.inr (Or.inl rfl)
          · exact Or.inl rfl
      · intro k hk
        have hkl : ((getSubgraph j i).precursor_cnt).toNat ≤ 4 := by omega
        constructor
        · rw [hmg, hgd]
          rw [hdeps1 k hk (by simp [group_pre_tcb]; omega)]
          exact dep_word_eq _ _
        · rw [hmt, htd]
          rw [hdeps2 k hk (by
            rw [(task_pre_tcb_flag j i 0).2]
            simp
            omega)]
          exact dep_word_eq _ _
    · intro hpre
      rw [config_deps_preall hpre] at hcfg1 hcfg2
      injection hcfg1 with hcfg1
      injection hcfg2 with hcfg2
      constructor
      · rw [hmg, hgf, ← hcfg1]
        show TCB_FLAG_DEP_TYPE ((group_pre_tcb j (j.start_group_id + i)).flag |||
          TCB_FLAG_DEP_TYPE_PRE_ALL) = TCB_FLAG_DEP_TYPE_PRE_ALL
        rw [group_pre_tcb_flag]
        decide
      · rw [hmt, htf, ← hcfg2]
        show TCB_FLAG_DEP_TYPE ((task_pre_tcb j i 0).flag |||
          TCB_FLAG_DEP_TYPE_PRE_ALL) = TCB_FLAG_DEP_TYPE_PRE_ALL
        have hb : (task_pre_tcb j i 0).flag = task_flag_base j i 0 := (task_pre_tcb_flag j i 0).1
        rw [hb, task_flag_base_eq]
        refine (task_bits _ 32 ?_ (Or.inr (Or.inr rfl))).2.2.2.2
        split
        · exact Or.inr (Or.inr rfl)
        · split
          · exact Or.inr (Or.inl rfl)
          · exact Or.inl rfl
    · intro t ht1 ht4
      obtain ⟨tt, htt, htval⟩ := htasks t (by omega)
      have hmtt : tcb_mem ((0, grid_init_tcb j) :: ws) (2 + 5 * i + t) = tt := by
        rw [hmem]; exact htval
      obtain ⟨d, hd, hd0, hftt, _⟩ := setup_task_tcb_flag htt
      rw [hd0 (by omega)] at hftt
      rw [hmtt, hftt, task_flag_base_eq]
      refine (task_bits _ 0 ?_ (Or.inl rfl)).2.2.2.2
      split
      · exact Or.inr (Or.inr rfl)
      · split
        · exact Or.inr (Or.inl rfl)
        · exact Or.inl rfl
  · rintro ⟨hc1, hc4, hbad⟩
    refine chain_fails_of_config_err j i hi (fun tcb => ?_)
    rw [hid i hi]
    exact config_deps_group_err hc1 hc4 hbad
  · intro hinv
    refine chain_fails_of_config_err j i hi (fun tcb => ?_)
    rw [hid i hi]
    exact config_deps_invalid (by rcases hinv with h | h; exact Or.inl h; exact Or.inr h)

/-- Concrete job with a dependent second subgraph (`precursors = [0]`). -/
def jC2 : Job :=
  { subgraphs := [{ id := 0 }, { id := 1, precursor_cnt := 1, precursors := [0] }],
    task_per_sg := 4, start_group_id := 7 }

/-- Witness for C2 at the concrete job `jC2`, subgraph 1. -/
theorem c2_dependency_encoding_witness :
    1 < jC2.subgraphs.length ∧
    ((∀ allws, setup_tcb_chain jC2 = .ok allws →
      ((getSubgraph jC2 1).precursor_cnt = 0 →
        TCB_FLAG_DEP_TYPE (tcb_mem allws (1 + 5 * 1)).flag = TCB_FLAG_DEP_TYPE_NONE ∧
        TCB_FLAG_DEP_TYPE (tcb_mem allws (2 + 5 * 1)).flag = TCB_FLAG_DEP_TYPE_NONE) ∧
      ((1 ≤ (getSubgraph jC2 1).precursor_cnt ∧ (getSubgraph jC2 1).precursor_cnt ≤ 4) →
        TCB_FLAG_DEP_TYPE (tcb_mem allws (1 + 5 * 1)).flag = TCB_FLAG_DEP_TYPE_GROUP ∧
        TCB_FLAG_DEP_TYPE (tcb_mem allws (2 + 5 * 1)).flag = TCB_FLAG_DEP_TYPE_GROUP ∧
        (∀ k, k < (getSubgraph jC2 1).precursor_cnt.toNat →
          (tcb_mem allws (1 + 5 * 1)).group_deps.getD k 0 =
            (EN_GROUP_DEPEND |||
              (((getSubgraph jC2 1).precursors.getD k 0 + jC2.start_group_id) &&& 0x7FFF)) ∧
          (tcb_mem allws (2 + 5 * 1)).group_deps.getD k 0 =
            (EN_GROUP_DEPEND |||
              (((getSubgraph jC2 1).precursors.getD k 0 + jC2.start_group_id) &&& 0x7FFF)))) ∧
      ((getSubgraph jC2 1).precursor_cnt = -1 →
        TCB_FLAG_DEP_TYPE (tcb_mem allws (1 + 5 * 1)).flag = TCB_FLAG_DEP_TYPE_PRE_ALL ∧
        TCB_FLAG_DEP_TYPE (tcb_mem allws (2 + 5 * 1)).flag = TCB_FLAG_DEP_TYPE_PRE_ALL) ∧
      (∀ t, 1 ≤ t → t < 4 →
        TCB_FLAG_DEP_TYPE (tcb_mem allws (2 + 5 * 1 + t)).flag =
          TCB_FLAG_DEP_TYPE_NONE)) ∧
    ((1 ≤ (getSubgraph jC2 1).precursor_cnt ∧ (getSubgraph jC2 1).precursor_cnt ≤ 4 ∧
        ∃ k, k < (getSubgraph jC2 1).precursor_cnt.toNat ∧
          (getSubgraph jC2 1).precursors.getD k 0 > 0x7fff) →
      setup_tcb_chain jC2 = .error .INVALID_GBIN) ∧
    (((getSubgraph jC2 1).precursor_cnt < -1 ∨ 4 < (getSubgraph jC2 1).precursor_cnt) →
      setup_tcb_chain jC2 = .error .INVALID_GBIN)) :=
  ⟨by decide,
    c2_dependency_encoding jC2 1 rfl
      (fun k hk => by
        have hk2 : k < 2 := by simpa [jC2] using hk
        have : k = 0 ∨ k = 1 := by omega
        rcases this with rfl | rfl <;> rfl)
      (by decide)⟩

/- ----------------------------------------------------------------
Claim C3: sort_io_tensor
---------------------------------------------------------------- -/

theorem getD_set_self {α : Type} (l : List α) (q : Nat) (v d : α) (h : q < l.length) :
    (l.set q v).getD q d = v := by
  simp [List.getD_eq_getElem?_getD, List.getElem?_set, h]

theorem getD_set_ne {α : Type} (l : List α) (q p : Nat) (v d : α) (h : q ≠ p) :
    (l.set q v).getD p d = l.getD p d := by
  simp [List.getD_eq_getElem?_getD, List.getElem?_set_ne h]

theorem sortIoLoop_err (tmp : List GraphIOTensorDesc) :
    ∀ idxs cur, (∃ i ∈ idxs, (tmp.getD i {}).id ≥ tmp.length) →
    sortIoLoop tmp idxs cur = .error .INVALID_GBIN := by
  intro idxs
  induction idxs with
  | nil =>
    rintro cur ⟨i, hi, _⟩
    cases hi
  | cons i rest ih =>
    rintro cur ⟨i', hi', hbad⟩
    rw [sortIoLoop]
    by_cases hb : (tmp.getD i {}).id ≥ tmp.length
    · simp only [ge_iff_le, hb, if_pos]
    · simp only [ge_iff_le, hb, if_neg, not_false_iff]
      rcases List.mem_cons.mp hi' with rfl | hmem
      · omega
      · exact ih _ ⟨i', hmem, hbad⟩

theorem sortIoLoop_strong (tmp : List GraphIOTensorDesc)
    (hgood : ∀ t ∈ tmp, t.id < tmp.length)
    (hinj : ∀ a b, a < tmp.length → b < tmp.length →
      (tmp.getD a {}).id = (tmp.getD b {}).id → a = b) :
    ∀ idxs cur, idxs.Nodup → (∀ i ∈ idxs, i < tmp.length) →
      cur.length = tmp.length →
    ∃ out, sortIoLoop tmp idxs cur = .ok out ∧ out.length = tmp.length ∧
      ∀ p, p < tmp.length →
        (∀ i ∈ idxs, (tmp.getD i {}).id = p → i ≠ p → out.getD p {} = tmp.getD i {}) ∧
        ((¬ ∃ i ∈ idxs, (tmp.getD i {}).id = p ∧ i ≠ p) →
          out.getD p {} = cur.getD p {}) := by
  intro idxs
  induction idxs with
  | nil =>
    intro cur _ _ hlen
    exact ⟨cur, rfl, hlen, fun p _ =>
      ⟨fun i hi _ _ => absurd hi (List.not_mem_nil i), fun _ => rfl⟩⟩
  | cons i rest ih =>
    intro cur hnd hlt hlen
    have hi_lt : i < tmp.length := hlt i (List.mem_cons_self i rest)
    have hgood_i : (tmp.getD i {}).id < tmp.length := by
      apply hgood
      have h1 : tmp.getD i {} = tmp[i] := by
        simp [List.getD_eq_getElem?_getD, List.getElem?_eq_getElem hi_lt]
      rw [h1]
      exact List.getElem_mem hi_lt
    have hnb : ¬ (tmp.getD i {}).id ≥ tmp.length := by omega
    rw [sortIoLoop]
    simp only [ge_iff_le, hnb, if_neg, not_false_iff]
    by_cases heq : (tmp.getD i {}).id = i
    · rw [if_pos heq]
      obtain ⟨out, hout, holen, hprop⟩ := ih cur (List.Nodup.of_cons hnd)
        (fun i' hi' => hlt i' (List.mem_cons_of_mem i hi')) hlen
      refine ⟨out, hout, holen, fun p hp => ⟨?_, ?_⟩⟩
      · intro i' hi' hid hne
        rcases List.mem_cons.mp hi' with rfl | hmem
        · omega
        · exact (hprop p hp).1 i' hmem hid hne
      · intro hnex
        apply (hprop p hp).2
        rintro ⟨i', hi', hid, hne⟩
        exact hnex ⟨i', List.mem_cons_of_mem i hi', hid, hne⟩
    · rw [if_neg heq]
      have hlen' : (cur.set (tmp.getD i {}).id (tmp.getD i {})).length = tmp.length := by
        simp [hlen]
      obtain ⟨out, hout, holen, hprop⟩ := ih _ (List.Nodup.of_cons hnd)
        (fun i' hi' => hlt i' (List.mem_cons_of_mem i hi')) hlen'
      refine ⟨out, hout, holen, fun p hp => ⟨?_, ?_⟩⟩
      · intro i' hi' hid hne
        rcases List.mem_cons.mp hi' with rfl | hmem
        · -- the head write at position p = id survives: no later write targets p
          have hnex : ¬ ∃ i2 ∈ rest, (tmp.getD i2 {}).id = p ∧ i2 ≠ p := by
            rintro ⟨i2, hi2, hid2, _⟩
            have : i2 = i' := hinj i2 i' (hlt i2 (List.mem_cons_of_mem i' hi2)) hi_lt
              (by rw [hid2, hid])
            subst this
            exact (List.nodup_cons.mp hnd).1 hi2
          have := (hprop p hp).2 hnex
          rw [this, ← hid]
          exact getD_set_self cur _ _ _ (by omega)
        · exact (hprop p hp).1 i' hmem hid hne
      · intro hnex
        have hnp : (tmp.getD i {}).id ≠ p := by
          intro hc
          exact hnex ⟨i, List.mem_cons_self i rest, hc, by omega⟩
        have hnex' : ¬ ∃ i2 ∈ rest, (tmp.getD i2 {}).id = p ∧ i2 ≠ p := by
          rintro ⟨i2, hi2, hid2, hne2⟩
          exact hnex ⟨i2, List.mem_cons_of_mem i hi2, hid2, hne2⟩
        have := (hprop p hp).2 hnex'
        rw [this]
        exact getD_set_ne cur _ p _ _ hnp

theorem sortIoLoop_ok (tmp : List GraphIOTensorDesc) :
    ∀ idxs cur, (∀ i ∈ idxs, (tmp.getD i {}).id < tmp.length) →
    ∃ out, sortIoLoop tmp idxs cur = .ok out ∧ out.length = cur.length := by
  intro idxs
  induction idxs with
  | nil => intro cur _; exact ⟨cur, rfl, rfl⟩
  | cons i rest ih =>
    intro cur hgood
    have hb : ¬ (tmp.getD i {}).id ≥ tmp.length := by
      have := hgood i (List.mem_cons_self i rest)
      omega
    rw [sortIoLoop]
    simp only [ge_iff_le, hb, if_neg, not_false_iff]
    by_cases heq : (tmp.getD i {}).id = i
    · rw [if_pos heq]
      exact ih cur (fun i' hi' => hgood i' (List.mem_cons_of_mem i hi'))
    · rw [if_neg heq]
      obtain ⟨out, hout, hlen⟩ := ih (cur.set (tmp.getD i {}).id (tmp.getD i {}))
        (fun i' hi' => hgood i' (List.mem_cons_of_mem i hi'))
      exact ⟨out, hout, by simpa using hlen⟩

theorem nodup_ids_inj {l : List GraphIOTensorDesc}
    (h : (l.map GraphIOTensorDesc.id).Nodup) :
    ∀ a b, a < l.length → b < l.length →
      (l.getD a {}).id = (l.getD b {}).id → a = b := by
  intro a b ha hb he
  have ha' : a < (l.map GraphIOTensorDesc.id).length := by simpa using ha
  have hb' : b < (l.map GraphIOTensorDesc.id).length := by simpa using hb
  have hga : l.getD a {} = l[a] := by
    simp [List.getD_eq_getElem?_getD, List.getElem?_eq_getElem ha]
  have hgb : l.getD b {} = l[b] := by
    simp [List.getD_eq_getElem?_getD, List.getElem?_eq_getElem hb]
  rw [hga, hgb] at he
  have hmap : (l.map GraphIOTensorDesc.id)[a] = (l.map GraphIOTensorDesc.id)[b] := by
    rw [List.getElem_map, List.getElem_map]
    exact he
  exact (List.Nodup.getElem_inj_iff h).mp hmap

/-- C3 counterexample input: two descriptors both carrying id 0. -/
def dupIo : List GraphIOTensorDesc := [{}, {}]

/-- C3 as stated is false: on a list whose ids are all in range but
duplicated, `sort_io_tensor` succeeds yet the result is not sorted by id
(`tensors[1].id = 0 ≠ 1`). -/
theorem c3_sort_io_counterexample :
    (∀ t ∈ dupIo, t.id < dupIo.length) ∧
    sort_io_tensor dupIo = .ok dupIo ∧
    ¬ (∀ p, p < dupIo.length → (dupIo.getD p {}).id = p) :=
  ⟨by decide, rfl, by decide⟩

/-- C3 (amended): a descriptor id at or beyond the list size makes
`sort_io_tensor` return INVALID_GBIN; otherwise the call succeeds, and
when the ids are additionally pairwise distinct (a permutation, the
compiler-declared tensor order) the result satisfies `tensors[i].id = i`
for every index. -/
theorem c3_sort_io_tensors (tensors : List GraphIOTensorDesc) :
    ((∃ t ∈ tensors, t.id ≥ tensors.length) →
      sort_io_tensor tensors = .error .INVALID_GBIN) ∧
    ((∀ t ∈ tensors, t.id < tensors.length) →
      ∃ out, sort_io_tensor tensors = .ok out ∧ out.length = tensors.length ∧
        ((tensors.map GraphIOTensorDesc.id).Nodup →
          ∀ p, p < out.length → (out.getD p {}).id = p)) := by
  constructor
  · rintro ⟨t, ht, hbad⟩
    obtain ⟨i, hi, hgi⟩ := List.mem_iff_getElem.mp ht
    apply sortIoLoop_err
    refine ⟨i, List.mem_range.mpr hi, ?_⟩
    have : tensors.getD i {} = tensors[i] := by
      simp [List.getD_eq_getElem?_getD, List.getElem?_eq_getElem hi]
    rw [this, hgi]
    exact hbad
  · intro hgood
    have hgood' : ∀ i ∈ List.range tensors.length,
        (tensors.getD i {}).id < tensors.length := by
      intro i hi
      have hi' := List.mem_range.mp hi
      have : tensors.getD i {} = tensors[i] := by
        simp [List.getD_eq_getElem?_getD, List.getElem?_eq_getElem hi']
      rw [this]
      exact hgood _ (List.getElem_mem hi')
    obtain ⟨out, hout, hlen⟩ := sortIoLoop_ok tensors (List.range tensors.length)
      tensors hgood'
    refine ⟨out, hout, hlen, ?_⟩
    intro hnd p hp
    have hinj := nodup_ids_inj hnd
    obtain ⟨out', hout', hlen', hprop⟩ := sortIoLoop_strong tensors hgood hinj
      (List.range tensors.length) tensors (List.nodup_range tensors.length)
      (fun i hi => List.mem_range.mp hi) rfl
    rw [hout] at hout'
    injection hout' with hout'
    subst hout'
    have hp' : p < tensors.length := by omega
    -- surjectivity of the id assignment
    have hsurj : ∃ i, i < tensors.length ∧ (tensors.getD i {}).id = p := by
      rcases Nat.eq_zero_or_pos tensors.length with hz | hpos
      · omega
      · let f : Fin tensors.length → Fin tensors.length := fun a =>
          ⟨(tensors.getD a.1 {}).id, by
            have : tensors.getD a.1 {} = tensors[a.1] := by
              simp [List.getD_eq_getElem?_getD, List.getElem?_eq_getElem a.2]
            rw [this]
            exact hgood _ (List.getElem_mem a.2)⟩
        have hfinj : Function.Injective f := by
          intro a b hab
          have := hinj a.1 b.1 a.2 b.2 (congrArg Fin.val hab)
          exact Fin.ext this
        obtain ⟨a, ha⟩ := Finite.injective_iff_surjective.mp hfinj ⟨p, hp'⟩
        exact ⟨a.1, a.2, congrArg Fin.val ha⟩
    obtain ⟨i, hil, hid⟩ := hsurj
    by_cases hip : i = p
    · subst hip
      have hnex : ¬ ∃ i2 ∈ List.range tensors.length,
          (tensors.getD i2 {}).id = i ∧ i2 ≠ i := by
        rintro ⟨i2, hi2, hid2, hne2⟩
        exact hne2 (hinj i2 i (List.mem_range.mp hi2) hil (by rw [hid2, hid]))
      have := (hprop i hil).2 hnex
      rw [this]
      exact hid
    · have := (hprop p hp').1 i (List.mem_range.mpr hil) hid hip
      rw [this]
      exact hid

/-- Witness for C3 (amended) at the concrete permutation
`[{id 1}, {id 0}]`: the call succeeds and sorts by id. -/
theorem c3_sort_io_tensors_witness :
    ∃ out, sort_io_tensor [({ id := 1 } : GraphIOTensorDesc), { id := 0 }] = .ok out ∧
      out.length = 2 ∧ ∀ p, p < out.length → (out.getD p {}).id = p := by
  obtain ⟨out, h1, h2, h3⟩ :=
    (c3_sort_io_tensors [{ id := 1 }, { id := 0 }]).2 (by decide)
  exact ⟨out, h1, h2, fun p hp => h3 (by decide) p hp⟩

/- ----------------------------------------------------------------
Claim C4: SimulatorV3_1::get_start_group_id (simulator_v3_1.cpp:88-130)
---------------------------------------------------------------- -/

/-- First index `≥ i` whose bitmap bit is clear (the outer scan of
`get_start_group_id`). -/
def first_free : List Bool → Nat → Option Nat
  | [], _ => none
  | b :: rest, i => if b = false then some i else first_free rest (i + 1)

/-- Marks `cnt` bits starting at `i` (the final `for` loop setting
`m_group_id_bitmap[j] = true`). -/
def mark_range (bitmap : List Bool) : Nat → Nat → List Bool
  | _, 0 => bitmap
  | i, c + 1 => mark_range (bitmap.set i true) (i + 1) c

/-- `SimulatorV3_1::get_start_group_id(group_cnt, start_group_id)`.
Returns `(ret, bitmap', start_group_id')`; `MAX_GROUP_ID` is the bitmap
length.  The inner conflict scan of the C++ loop stores `ret = -1` on an
already-set bit but that value is unconditionally overwritten by
`ret = 0` before the run is marked — the scan's result is dead, so it is
recorded here as an unused `let`. -/
def get_start_group_id (bitmap : List Bool) (group_cnt : Nat) (start_in : Nat) :
    Int × List Bool × Nat :=
  if group_cnt = 0 then (0, bitmap, start_in)
  else
    match first_free bitmap 0 with
    | none => (0, bitmap, start_in)
    | some i =>
      if i + group_cnt ≥ bitmap.length then (-1, bitmap, start_in)
      else
        let _conflict := (List.range group_cnt).any (fun k => bitmap.getD (i + k) false)
        (0, mark_range bitmap i group_cnt, i)

/-- Modelled from the spec: `put_start_group_id(start, count)` releases a
previously allocated run by clearing its bitmap bits (`§4.6: release`);
the function body is not among the provided sources. -/
def put_start_group_id (bitmap : List Bool) : Nat → Nat → List Bool
  | _, 0 => bitmap
  | i, c + 1 => put_start_group_id (bitmap.set i false) (i + 1) c

/-- C4 fails on the code: with MAX_GROUP_ID = 8, allocate A = [0,2) and
B = [2,3), release A, then request a run of 3.  The simultaneously held
run lengths (1 for B, 3 requested) sum to 4 < 8, yet the third allocation
returns success with start 0, i.e. the run [0,3), which overlaps B's
still-held group id 2 — the inner conflict scan's verdict is discarded. -/
theorem c4_group_id_overlap_eval :
    (get_start_group_id (List.replicate 8 false) 2 0 = (0, [true, true, false, false, false, false, false, false], 0)) ∧
    (get_start_group_id [true, true, false, false, false, false, false, false] 1 0 =
      (0, [true, true, true, false, false, false, false, false], 2)) ∧
    (put_start_group_id [true, true, true, false, false, false, false, false] 0 2 =
      [false, false, true, false, false, false, false, false]) ∧
    (get_start_group_id [false, false, true, false, false, false, false, false] 3 0 =
      (0, [true, true, true, false, false, false, false, false], 0)) ∧
    (0 ≤ 2 ∧ 2 < 0 + 3) := by
  refine ⟨?_, ?_, ?_, ?_, by omega⟩ <;> rfl

/- ----------------------------------------------------------------
Claim C9: ParserBase::get_graph_bin_version /
parse_graph_header_top (parser_base.cpp:358-417)
---------------------------------------------------------------- -/

/-- Modelled from the spec: the 8-byte text magic (`MAGIC` lives in the
parser header, which is not among the provided sources; the spec calls it
"the text magic").  The bytes spell "AIPU BIN". -/
def MAGIC : List Nat := [0x41, 0x49, 0x50, 0x55, 0x20, 0x42, 0x49, 0x4E]

/-- The 4-byte ELF identification prefix `"\177ELF"` compared by
`strncmp(e_ident, "\177ELF", 4)`. -/
def ELF_IDENT : List Nat := [0x7F, 0x45, 0x4C, 0x46]

/-- Modelled from the spec: the two accepted graph-version codes (their
numeric values live in the parser header, not among the provided sources;
only their distinctness matters). -/
def AIPU_LOADABLE_GRAPH_V0005 : Nat := 5

/-- Modelled from the spec: version code of ELF-packaged graphs. -/
def AIPU_LOADABLE_GRAPH_ELF_V0 : Nat := 6

/-- Modelled from the spec: `GRAPH_VERSION(version)` extracts the graph
version packed in the high bits of the 32-bit `version` word. -/
def GRAPH_VERSION (v : Nat) : Nat := (v >>> 24) &&& 0xFF

/-- `ParserBase::get_graph_bin_version(gbin)`: reads a 16-byte identifier
from the stream (modelled as the stream's byte list); fewer than 16 bytes
leaves `g_version = 0`; a MAGIC prefix yields V0005, an ELF prefix yields
ELF_V0, anything else leaves 0 (no accepted version - the binary is
rejected by the loader). -/
def get_graph_bin_version (stream : List Nat) : Nat :=
  if stream.length < 16 then 0
  else if stream.take 8 = MAGIC then AIPU_LOADABLE_GRAPH_V0005
  else if stream.take 4 = ELF_IDENT then AIPU_LOADABLE_GRAPH_ELF_V0
  else 0

/-- Modelled from the spec (§6): the top header of a graph binary.
`magic` is the leading 8-byte field compared by `strcmp(header.magic,
MAGIC)`. -/
structure BinHeaderTop where
  magic : List Nat := []
  device : Nat := 0
  version : Nat := 0
  build_version : Nat := 0
  header_size : Nat := 0
  file_size : Nat := 0
  type : Nat := 0
  flag : Nat := 0
  deriving Repr, DecidableEq

/-- Graph fields set by `parse_graph_header_top` (the `gobj.set_*`
calls). -/
structure GraphMeta where
  build_version : Nat
  gversion : Nat
  arch : Nat
  hw_version : Nat
  hw_config : Nat
  hw_revision : Nat
  asid_flag : Nat
  sram_flag : Nat
  remap_flag : Nat
  deriving Repr, DecidableEq

/-- Modelled from the spec: `device:u32` packs arch/version/config/revision. -/
def AIPU_ARCH (d : Nat) : Nat := (d >>> 24) &&& 0xFF

/-- Modelled from the spec: ISA version field of the packed device word. -/
def AIPU_VERSION (d : Nat) : Nat := (d >>> 16) &&& 0xFF

/-- Modelled from the spec: configuration field of the packed device word. -/
def AIPU_CONFIG (d : Nat) : Nat := d &&& 0xFFFF

/-- Modelled from the spec: revision field of the packed device word. -/
def AIPU_REVISION (d : Nat) : Nat := (d >>> 8) &&& 0xFF

/-- Flag accessors, per spec §6: ASID in bits 0..3, ASID_EN bit 4,
REMAP_EN bit 8, SRAM_EN bit 12. -/
def GET_ASID_FLAG (f : Nat) : Nat := f &&& 0xF

def GET_REMAP_FLAG (f : Nat) : Nat := (f >>> 8) &&& 0x1

def GET_SRAM_FLAG (f : Nat) : Nat := (f >>> 12) &&& 0x1

/-- `ParserBase::parse_graph_header_top(gbin, size, gobj)`: a short read
(`gcount != BIN_HDR_TOP_SIZE`, modelled as `none`) is INVALID_GBIN; a
magic mismatch is UNKNOWN_BIN; a graph version other than V0005/ELF_V0 is
GVERSION_UNSUPPORTED; otherwise the graph metadata is recorded. -/
def parse_graph_header_top (hdr : Option BinHeaderTop) : Except AipuStatus GraphMeta :=
  match hdr with
  | none => .error .INVALID_GBIN
  | some h =>
    if h.magic ≠ MAGIC then .error .UNKNOWN_BIN
    else if GRAPH_VERSION h.version ≠ AIPU_LOADABLE_GRAPH_V0005 ∧
        GRAPH_VERSION h.version ≠ AIPU_LOADABLE_GRAPH_ELF_V0 then
      .error .GVERSION_UNSUPPORTED
    else
      .ok { build_version := h.build_version,
            gversion := GRAPH_VERSION h.version,
            arch := AIPU_ARCH h.device,
            hw_version := AIPU_VERSION h.device,
            hw_config := AIPU_CONFIG h.device,
            hw_revision := AIPU_REVISION h.device,
            asid_flag := GET_ASID_FLAG h.flag,
            sram_flag := GET_SRAM_FLAG h.flag,
            remap_flag := GET_REMAP_FLAG h.flag }

/-- C9: the reader classifies a stream by its first 16-byte identifier —
a text-magic prefix means V0005, an ELF prefix means ELF_V0, anything
else (or a short stream) yields no version and is rejected; header
parsing rejects a wrong magic as UNKNOWN_BIN and accepts only graph
versions V0005 and ELF_V0, returning GVERSION_UNSUPPORTED when the magic
matches but the version is any other value. -/
theorem c9_bin_version :
    (∀ stream : List Nat,
      (stream.length ≥ 16 → stream.take 8 = MAGIC →
        get_graph_bin_version stream = AIPU_LOADABLE_GRAPH_V0005) ∧
      (stream.length ≥ 16 → stream.take 8 ≠ MAGIC → stream.take 4 = ELF_IDENT →
        get_graph_bin_version stream = AIPU_LOADABLE_GRAPH_ELF_V0) ∧
      ((stream.length < 16 ∨ (stream.take 8 ≠ MAGIC ∧ stream.take 4 ≠ ELF_IDENT)) →
        get_graph_bin_version stream = 0)) ∧
    (parse_graph_header_top none = .error .INVALID_GBIN) ∧
    (∀ h : BinHeaderTop,
      (h.magic ≠ MAGIC → parse_graph_header_top (some h) = .error .UNKNOWN_BIN) ∧
      (h.magic = MAGIC → GRAPH_VERSION h.version ≠ AIPU_LOADABLE_GRAPH_V0005 →
        GRAPH_VERSION h.version ≠ AIPU_LOADABLE_GRAPH_ELF_V0 →
        parse_graph_header_top (some h) = .error .GVERSION_UNSUPPORTED) ∧
      (h.magic = MAGIC →
        (GRAPH_VERSION h.version = AIPU_LOADABLE_GRAPH_V0005 ∨
          GRAPH_VERSION h.version = AIPU_LOADABLE_GRAPH_ELF_V0) →
        ∃ meta, parse_graph_header_top (some h) = .ok meta ∧
          meta.gversion = GRAPH_VERSION h.version)) := by
  refine ⟨?_, rfl, ?_⟩
  · intro stream
    refine ⟨?_, ?_, ?_⟩
    · intro hlen hm
      unfold get_graph_bin_version
      rw [if_neg (by omega), if_pos hm]
    · intro hlen hm he
      unfold get_graph_bin_version
      rw [if_neg (by omega), if_neg hm, if_pos he]
    · rintro (hlen | ⟨hm, he⟩)
      · unfold get_graph_bin_version
        rw [if_pos hlen]
      · unfold get_graph_bin_version
        by_cases h16 : stream.length < 16
        · rw [if_pos h16]
        · rw [if_neg h16, if_neg hm, if_neg he]
  · intro h
    refine ⟨?_, ?_, ?_⟩
    · intro hm
      simp only [parse_graph_header_top]
      rw [if_pos hm]
    · intro hm hv1 hv2
      simp only [parse_graph_header_top]
      rw [if_neg (by simpa using hm), if_pos ⟨hv1, hv2⟩]
    · intro hm hv
      simp only [parse_graph_header_top]
      rw [if_neg (by simpa using hm), if_neg (by tauto)]
      exact ⟨_, rfl, rfl⟩

/-- Witness for C9: a MAGIC-headed stream classifies as V0005, a good
header parses, and a matching magic with version code 3 is rejected as
GVERSION_UNSUPPORTED. -/
theorem c9_bin_version_witness :
    get_graph_bin_version (MAGIC ++ List.replicate 8 0) = AIPU_LOADABLE_GRAPH_V0005 ∧
    (∃ meta, parse_graph_header_top
        (some { magic := MAGIC, version := 5 <<< 24 }) = .ok meta ∧
      meta.gversion = GRAPH_VERSION (5 <<< 24)) ∧
    parse_graph_header_top (some { magic := MAGIC, version := 3 <<< 24 }) =
      .error .GVERSION_UNSUPPORTED := by
  refine ⟨?_, ?_, ?_⟩
  · exact (c9_bin_version.1 (MAGIC ++ List.replicate 8 0)).1 (by decide) (by decide)
  · exact ((c9_bin_version.2.2 { magic := MAGIC, version := 5 <<< 24 }).2.2)
      (by decide) (by decide)
  · exact ((c9_bin_version.2.2 { magic := MAGIC, version := 3 <<< 24 }).2.1)
      (by decide) (by decide) (by decide)

/- ----------------------------------------------------------------
Claim C6: JobV3_1::parse_dynamic_out_shape (job_v3_1.cpp:1998-2052)
---------------------------------------------------------------- -/

/-- Subset of `aipu_data_type_t` relevant to the byte-per-element
computation (any further enum member takes the default `* 1` path, like
U8/S8). -/
inductive AipuDataType where
  | U8 | S8 | U16 | S16 | F16 | BF16 | U32 | S32 | F32
  deriving Repr, DecidableEq

instance : Inhabited AipuDataType := ⟨.U8⟩

/-- Shift applied to the element count: `size <<= 1` for 16-bit types,
`size <<= 2` for 32-bit types, nothing otherwise. -/
def dtype_shift : AipuDataType → Nat
  | .U16 | .S16 | .F16 | .BF16 => 1
  | .U32 | .S32 | .F32 => 2
  | _ => 0

/-- Bytes per element of a data type (2 ^ dtype_shift). -/
def dtype_bpe (t : AipuDataType) : Nat := 2 ^ dtype_shift t

/-- One output-shape tensor as the job sees it: its byte `size` and the
`size/4` 32-bit `words` that `m_mem->read` returns from device memory. -/
structure OutShape where
  size : Nat := 0
  words : List Nat := []
  deriving Repr, DecidableEq

instance : Inhabited OutShape := ⟨{}⟩

/-- The element-count loop `size = 1; for j < size/4: size *= data[j]`,
in wrapping `uint64_t` arithmetic. -/
def prod64 (n : Nat) (words : List Nat) : Nat :=
  (List.range n).foldl (fun acc ix => (acc * words.getD ix 0) % 18446744073709551616) 1

/-- Modelled from the spec: the `DynamicShape` helper's per-job record of
resolved output sizes (`set_config_out_tensor_size` /
`clear_config_out_tensor_size`) and the once-per-job flag tested and set
by `testset_dynamic_out_shape_updated` (the helper class is not among the
provided sources). -/
structure DynShapeState where
  config_out_tensor_size : List (Nat × Nat) := []
  out_shape_updated : Bool := false
  deriving Repr, DecidableEq

/-- The recorded size of output `k`: wrapped product of its dims, shifted
by the bytes-per-element of the output's data type. -/
def out_size_val (outputs : List AipuDataType) (shapes : List OutShape) (k : Nat) : Nat :=
  (prod64 ((shapes.getD k {}).size / 4) (shapes.getD k {}).words
    <<< dtype_shift (outputs.getD k .U8)) % 18446744073709551616

/-- The per-output loop of `parse_dynamic_out_shape`; `rem` outputs
remain starting at index `i`.  A zero element product clears the recorded
sizes and aborts with ZERO_TENSOR_SIZE. -/
def parse_out_shape_loop (outputs : List AipuDataType) (shapes : List OutShape) :
    Nat → Nat → DynShapeState → (Except AipuStatus Unit) × DynShapeState
  | 0, _, st => (.ok (), st)
  | rem + 1, i, st =>
    let sz := prod64 ((shapes.getD i {}).size / 4) (shapes.getD i {}).words
    if sz = 0 then
      (.error .ZERO_TENSOR_SIZE, { st with config_out_tensor_size := [] })
    else
      let sz := (sz <<< dtype_shift (outputs.getD i .U8)) % 18446744073709551616
      parse_out_shape_loop outputs shapes rem (i + 1)
        { st with config_out_tensor_size := st.config_out_tensor_size ++ [(i, sz)] }

/-- `JobV3_1::parse_dynamic_out_shape()`.  Inputs: whether the job is a
dynamic-shape job with the input shapes set (`is_dynamic_shape ∧
is_set_dyn_shape_true`), the configured-shape count versus the input
count, the output data types, the output-shape tensors read back from the
device, and the helper state.  Returns the status, the new helper state,
and whether the output I/O descriptors were updated
(`update_dynamic_io_tensor_size` + `update_single_io_buffers`). -/
def parse_dynamic_out_shape (dyn_active : Bool) (config_shape_sz inputs_cnt : Nat)
    (outputs : List AipuDataType) (outputs_shape : List OutShape)
    (st : DynShapeState) : (Except AipuStatus Unit) × DynShapeState × Bool :=
  if dyn_active ∧ config_shape_sz = inputs_cnt then
    if st.out_shape_updated then (.ok (), st, false)
    else
      let st := { st with out_shape_updated := true }
      if outputs_shape.length ≠ outputs.length then
        (.error .UNMATCH_OUT_SHAPE, st, false)
      else
        match parse_out_shape_loop outputs outputs_shape outputs_shape.length 0 st with
        | (.ok _, st') => (.ok (), st', true)
        | (.error e, st') => (.error e, st', false)
  else (.ok (), st, false)

theorem parse_out_shape_loop_ok (outputs : List AipuDataType) (shapes : List OutShape) :
    ∀ rem i st,
    (∀ k, i ≤ k → k < i + rem →
      prod64 ((shapes.getD k {}).size / 4) (shapes.getD k {}).words ≠ 0) →
    parse_out_shape_loop outputs shapes rem i st =
      (.ok (), { st with config_out_tensor_size := st.config_out_tensor_size ++
        (List.range' i rem).map (fun k => (k, out_size_val outputs shapes k)) }) := by
  intro rem
  induction rem with
  | zero =>
    intro i st _
    simp [parse_out_shape_loop]
  | succ rem ih =>
    intro i st hnz
    rw [parse_out_shape_loop]
    simp only [hnz i le_rfl (by omega), if_neg, not_false_iff]
    rw [ih (i + 1) _ (fun k hk1 hk2 => hnz k (by omega) (by omega))]
    rw [List.range'_succ]
    simp [out_size_val]

theorem parse_out_shape_loop_err (outputs : List AipuDataType) (shapes : List OutShape) :
    ∀ rem i st,
    (∃ k, i ≤ k ∧ k < i + rem ∧
      prod64 ((shapes.getD k {}).size / 4) (shapes.getD k {}).words = 0) →
    parse_out_shape_loop outputs shapes rem i st =
      (.error .ZERO_TENSOR_SIZE,
        { config_out_tensor_size := [], out_shape_updated := st.out_shape_updated }) := by
  intro rem
  induction rem with
  | zero =>
    rintro i st ⟨k, hk1, hk2, _⟩
    omega
  | succ rem ih =>
    rintro i st ⟨k, hk1, hk2, hz⟩
    rw [parse_out_shape_loop]
    by_cases hzi : prod64 ((shapes.getD i {}).size / 4) (shapes.getD i {}).words = 0
    · simp only [hzi, if_pos]
    · simp only [hzi, if_neg, not_false_iff]
      have hki : k ≠ i := fun hc => by subst hc; exact hzi hz
      exact ih (i + 1) _ ⟨k, by omega, by omega, hz⟩

/-- C6 counterexample: an output-shape tensor with dims
[2^31, 2^31, 2^31] has a nonzero product of dims (2^93), so per the claim
the call should record a size for the output; but the code computes the
product in wrapping uint64 arithmetic, 2^93 wraps to 0, and the call
fails with ZERO_TENSOR_SIZE. -/
theorem c6_dynshape_counterexample :
    2147483648 * 2147483648 * 2147483648 ≠ 0 ∧
    parse_dynamic_out_shape true 1 1 [.F32]
      [{ size := 12, words := [2147483648, 2147483648, 2147483648] }] {} =
      (.error .ZERO_TENSOR_SIZE,
        { config_out_tensor_size := [], out_shape_updated := true }, false) :=
  ⟨by norm_num, by rfl⟩

/-- C6 (amended: sizes are computed in wrapping 64-bit arithmetic, and
the zero test applies to the wrapped product): for a dynamic-shape job
with its input shapes configured and a not-yet-updated helper,
(1) if every output's wrapped product of dims is nonzero the call
succeeds, records (k, resolved size) for every output k in order, and
updates the output I/O descriptors; (2) if some output's wrapped product
is zero the call fails with ZERO_TENSOR_SIZE, clears all recorded sizes,
and does not update the descriptors; (3) once the per-job updated flag is
set, a further call succeeds without touching anything (the update
happens at most once per job); (4) the recorded size of output k is the
wrapped product of its dims times the bytes-per-element of its data type
(1 for U8/S8, 2 for 16-bit types, 4 for 32-bit types), mod 2^64. -/
theorem c6_dynshape_sizes (outputs : List AipuDataType) (shapes : List OutShape)
    (st : DynShapeState) (csz icnt : Nat)
    (hc : csz = icnt) (hlen : shapes.length = outputs.length)
    (hfresh : st.out_shape_updated = false) :
    ((∀ k, k < shapes.length →
        prod64 ((shapes.getD k {}).size / 4) (shapes.getD k {}).words ≠ 0) →
      parse_dynamic_out_shape true csz icnt outputs shapes st =
        (.ok (), ⟨st.config_out_tensor_size ++
            (List.range' 0 shapes.length).map (fun k => (k, out_size_val outputs shapes k)),
            true⟩, true)) ∧
    ((∃ k, k < shapes.length ∧
        prod64 ((shapes.getD k {}).size / 4) (shapes.getD k {}).words = 0) →
      parse_dynamic_out_shape true csz icnt outputs shapes st =
        (.error .ZERO_TENSOR_SIZE,
          { config_out_tensor_size := [], out_shape_updated := true }, false)) ∧
    (∀ st2 : DynShapeState, st2.out_shape_updated = true →
      parse_dynamic_out_shape true csz icnt outputs shapes st2 = (.ok (), st2, false)) ∧
    (∀ k, k < shapes.length → out_size_val outputs shapes k =
      (prod64 ((shapes.getD k {}).size / 4) (shapes.getD k {}).words *
        dtype_bpe (outputs.getD k .U8)) % 18446744073709551616) := by
  refine ⟨?_, ?_, ?_, ?_⟩
  · intro hnz
    simp only [parse_dynamic_out_shape, hc, hfresh, and_self, if_true, Bool.false_eq_true,
      if_false, hlen, ne_eq, not_true_eq_false, ite_true, ite_false]
    rw [parse_out_shape_loop_ok outputs shapes outputs.length 0 _
      (fun k _ hk => hnz k (by omega))]
  · rintro ⟨k, hk, hz⟩
    simp only [parse_dynamic_out_shape, hc, hfresh, and_self, if_true, Bool.false_eq_true,
      if_false, hlen, ne_eq, not_true_eq_false, ite_true, ite_false]
    rw [parse_out_shape_loop_err outputs shapes outputs.length 0 _ ⟨k, by omega, by omega, hz⟩]
  · intro st2 h2
    simp only [parse_dynamic_out_shape, hc, h2, and_self, if_true, ite_true]
  · intro k _
    simp only [out_size_val, dtype_bpe, Nat.shiftLeft_eq]

/-- C6 witness: one U16 output with dims [3, 5] (size 8 bytes, two
words); the call records size 3 * 5 * 2 = 30 for output 0, sets the
flag, and updates the descriptors. -/
theorem c6_dynshape_sizes_witness :
    parse_dynamic_out_shape true 2 2 [.U16] [{ size := 8, words := [3, 5] }] {} =
      (.ok (), { config_out_tensor_size := [(0, 30)], out_shape_updated := true }, true) := by
  have h := (c6_dynshape_sizes [.U16] [{ size := 8, words := [3, 5] }] {} 2 2 rfl rfl rfl).1
    (by decide)
  exact h.trans (by rfl)

/- ----------------------------------------------------------------
Claim C8: JobV3_1::setup_segmmu (job_v3_1.cpp:110-181)
---------------------------------------------------------------- -/

def SEGMMU_MEM_CTRL_EN : Nat := 1
def SEGMMU_REMAP_SHARE_EN : Nat := 32

/-- `SegMMUConfig` (graph_v3.h): four segments of two 32-bit control
words each, plus the SegMMU_ctl / SegMMU_remap words. -/
structure SegMMUConfig where
  seg : List (List Nat) := List.replicate 4 (List.replicate 2 0)
  SegMMU_ctl : Nat := 0
  SegMMU_remap : Nat := 0
  deriving Repr, DecidableEq

instance : Inhabited SegMMUConfig := ⟨{}⟩

/-- An entry of `m_segmmus`: an I/O buffer carrying a SegMMU tag `id`
and a device physical address `pa`. -/
structure SegmmuIobuf where
  id : Nat := 0
  pa : Nat := 0
  deriving Repr, DecidableEq

/-- Bit field `segmmu_ctrl_idx : 8` of the tag. -/
def segmmu_ctrl_idx (id : Nat) : Nat := id &&& 0xFF

/-- Bit field `segmmu_idx : 8` of the tag. -/
def segmmu_seg_idx (id : Nat) : Nat := (id >>> 8) &&& 0xFF

/-- Bit field `core_id_mask : 16` of the tag. -/
def segmmu_core_mask (id : Nat) : Nat := (id >>> 16) &&& 0xFFFF

/-- First loop of `setup_segmmu`: one config pushed to `m_segmmu_sec`
per core.  The source pointer starts at the section base and is
incremented BEFORE use on every iteration when `segmmu_num != 1`, so
core `i` reads config `i + 1` in that case, config 0 always
otherwise. -/
def setup_segmmu_sec (segmmu_num core_cnt : Nat) (cfgs : List SegMMUConfig) :
    List SegMMUConfig :=
  (List.range core_cnt).map (fun i =>
    { cfgs.getD (if segmmu_num = 1 then 0 else i + 1) {} with
        SegMMU_ctl := SEGMMU_REMAP_SHARE_EN ||| SEGMMU_MEM_CTRL_EN, SegMMU_remap := 0 })

/-- Control word of segment `seg`, word `ctrl`, of core `core` in the
materialized section list. -/
def seg_ctrl_val (sec : List SegMMUConfig) (core seg ctrl : Nat) : Nat :=
  ((sec.getD core {}).seg.getD seg []).getD ctrl 0

/-- The in-place update `ctrl &= 0x3fff; ctrl |= (iobuf.pa & ~0x3fff)`
on `m_segmmu_sec[core].seg[seg].control[ctrl]` (the store truncates to
32 bits, and `~0x3fff` sign-extends to 64 bits against the u64 pa). -/
def seg_ctrl_write (sec : List SegMMUConfig) (core seg ctrl pa : Nat) :
    List SegMMUConfig :=
  sec.set core { sec.getD core {} with
    seg := (sec.getD core {}).seg.set seg
      (((sec.getD core {}).seg.getD seg []).set ctrl
        (((((sec.getD core {}).seg.getD seg []).getD ctrl 0) &&& 0x3fff |||
          (pa &&& 0xFFFFFFFFFFFFC000)) % 4294967296)) }

/-- The per-core inner loop for one tagged I/O buffer; `rem` cores
remain starting at `core`.  The Bool is true when the loop hit a
`goto out` (an out-of-range seg or ctrl index). -/
def segmmu_cores (seg ctrl mask pa : Nat) :
    Nat → Nat → List SegMMUConfig → List SegMMUConfig × Bool
  | 0, _, sec => (sec, false)
  | rem + 1, core, sec =>
    if mask &&& (1 <<< core) = 0 then segmmu_cores seg ctrl mask pa rem (core + 1) sec
    else if seg < 4 then
      if ctrl ≤ 1 then
        segmmu_cores seg ctrl mask pa rem (core + 1) (seg_ctrl_write sec core seg ctrl pa)
      else (sec, true)
    else (sec, true)

/-- Second loop of `setup_segmmu` over the tagged I/O buffers; any
`goto out` (empty effective core mask, bad seg or ctrl index) stops the
walk and the function returns SUCCESS with the section as is. -/
def segmmu_bufs_loop (core_cnt : Nat) :
    List SegmmuIobuf → List SegMMUConfig → List SegMMUConfig
  | [], sec => sec
  | b :: bs, sec =>
    if segmmu_core_mask b.id &&& ((1 <<< core_cnt) - 1) = 0 then sec
    else
      match segmmu_cores (segmmu_seg_idx b.id) (segmmu_ctrl_idx b.id)
          (segmmu_core_mask b.id) b.pa core_cnt 0 sec with
      | (sec2, true) => sec2
      | (sec2, false) => segmmu_bufs_loop core_cnt bs sec2

/-- `JobV3_1::setup_segmmu`, returning the final `m_segmmu_sec`
contents (the status is always SUCCESS). -/
def setup_segmmu (segmmu_num core_cnt : Nat) (cfgs : List SegMMUConfig)
    (bufs : List SegmmuIobuf) : List SegMMUConfig :=
  if segmmu_num = 0 then []
  else segmmu_bufs_loop core_cnt bufs (setup_segmmu_sec segmmu_num core_cnt cfgs)

theorem getD_set_split {α : Type} (l : List α) (q p : Nat) (v d : α) :
    (l.set q v).getD p d = if q = p ∧ q < l.length then v else l.getD p d := by
  by_cases h1 : q = p
  · subst h1
    by_cases h2 : q < l.length
    · simp [getD_set_self l q v d h2, h2]
    · have h3 : l.length ≤ q := by omega
      rw [if_neg (by omega)]
      rw [List.getD_eq_default, List.getD_eq_default]
      · exact h3
      · simpa using h3
  · simp [getD_set_ne l q p v d h1, h1]

theorem seg_ctrl_write_ne (sec : List SegMMUConfig) (core seg ctrl pa c s t : Nat)
    (h : c ≠ core ∨ s ≠ seg ∨ t ≠ ctrl) :
    seg_ctrl_val (seg_ctrl_write sec core seg ctrl pa) c s t = seg_ctrl_val sec c s t := by
  simp only [seg_ctrl_val, seg_ctrl_write]
  rw [getD_set_split]
  split_ifs with h1
  · obtain ⟨hc, _⟩ := h1
    simp only
    rw [getD_set_split]
    split_ifs with h2
    · obtain ⟨hs, _⟩ := h2
      rw [getD_set_split]
      split_ifs with h3
      · obtain ⟨ht, _⟩ := h3
        rcases h with h | h | h
        · exact absurd hc.symm h
        · exact absurd hs.symm h
        · exact absurd ht.symm h
      · rw [hc, hs]
    · rw [hc]
  · rfl

theorem seg_ctrl_write_self (sec : List SegMMUConfig) (core seg ctrl pa : Nat)
    (h1 : core < sec.length) (h2 : seg < (sec.getD core {}).seg.length)
    (h3 : ctrl < ((sec.getD core {}).seg.getD seg []).length) :
    seg_ctrl_val (seg_ctrl_write sec core seg ctrl pa) core seg ctrl =
      (seg_ctrl_val sec core seg ctrl &&& 0x3fff |||
        (pa &&& 0xFFFFFFFFFFFFC000)) % 4294967296 := by
  simp only [seg_ctrl_val, seg_ctrl_write]
  rw [getD_set_self _ _ _ _ h1]
  simp only
  rw [getD_set_self _ _ _ _ h2, getD_set_self _ _ _ _ h3]

theorem seg_ctrl_write_getD_ne (sec : List SegMMUConfig) (core seg ctrl pa c : Nat)
    (h : c ≠ core) :
    (seg_ctrl_write sec core seg ctrl pa).getD c {} = sec.getD c {} := by
  simp only [seg_ctrl_write]
  exact getD_set_ne _ _ _ _ _ (Ne.symm h)

theorem seg_ctrl_write_length (sec : List SegMMUConfig) (core seg ctrl pa : Nat) :
    (seg_ctrl_write sec core seg ctrl pa).length = sec.length := by
  simp [seg_ctrl_write]

theorem segmmu_cores_untouched (seg ctrl mask pa : Nat) :
    ∀ rem core sec c s t,
    (s ≠ seg ∨ t ≠ ctrl ∨ c < core ∨ core + rem ≤ c ∨ mask &&& (1 <<< c) = 0) →
    seg_ctrl_val (segmmu_cores seg ctrl mask pa rem core sec).1 c s t =
      seg_ctrl_val sec c s t := by
  intro rem
  induction rem with
  | zero => intro core sec c s t _; rfl
  | succ rem ih =>
    intro core sec c s t h
    rw [segmmu_cores]
    by_cases hbit : mask &&& (1 <<< core) = 0
    · rw [if_pos hbit]
      refine ih (core + 1) sec c s t ?_
      rcases h with h | h | h | h | h
      · exact Or.inl h
      · exact Or.inr (Or.inl h)
      · exact Or.inr (Or.inr (Or.inl (by omega)))
      · exact Or.inr (Or.inr (Or.inr (Or.inl (by omega))))
      · exact Or.inr (Or.inr (Or.inr (Or.inr h)))
    · rw [if_neg hbit]
      have hcne : c ≠ core ∨ s ≠ seg ∨ t ≠ ctrl := by
        rcases h with h | h | h | h | h
        · exact Or.inr (Or.inl h)
        · exact Or.inr (Or.inr h)
        · exact Or.inl (by omega)
        · exact Or.inl (by omega)
        · exact Or.inl (fun hc => hbit (hc ▸ h))
      by_cases hseg : seg < 4
      · rw [if_pos hseg]
        by_cases hctrl : ctrl ≤ 1
        · rw [if_pos hctrl]
          rw [ih (core + 1) _ c s t ?_]
          · exact seg_ctrl_write_ne sec core seg ctrl pa c s t hcne
          · rcases h with h | h | h | h | h
            · exact Or.inl h
            · exact Or.inr (Or.inl h)
            · exact Or.inr (Or.inr (Or.inl (by omega)))
            · exact Or.inr (Or.inr (Or.inr (Or.inl (by omega))))
            · exact Or.inr (Or.inr (Or.inr (Or.inr h)))
        · rw [if_neg hctrl]
      · rw [if_neg hseg]

theorem segmmu_cores_no_abort (seg ctrl mask pa : Nat) (hseg : seg < 4) (hctrl : ctrl ≤ 1) :
    ∀ rem core sec, (segmmu_cores seg ctrl mask pa rem core sec).2 = false := by
  intro rem
  induction rem with
  | zero => intro core sec; rfl
  | succ rem ih =>
    intro core sec
    rw [segmmu_cores]
    by_cases hbit : mask &&& (1 <<< core) = 0
    · rw [if_pos hbit]; exact ih _ _
    · rw [if_neg hbit, if_pos hseg, if_pos hctrl]; exact ih _ _

theorem segmmu_cores_sel (seg ctrl mask pa : Nat) (hseg : seg < 4) (hctrl : ctrl ≤ 1) :
    ∀ rem core sec c, core ≤ c → c < core + rem → mask &&& (1 <<< c) ≠ 0 →
    c < sec.length → seg < (sec.getD c {}).seg.length →
    ctrl < ((sec.getD c {}).seg.getD seg []).length →
    seg_ctrl_val (segmmu_cores seg ctrl mask pa rem core sec).1 c seg ctrl =
      (seg_ctrl_val sec c seg ctrl &&& 0x3fff |||
        (pa &&& 0xFFFFFFFFFFFFC000)) % 4294967296 := by
  intro rem
  induction rem with
  | zero => intro core sec c h1 h2 _ _ _ _; omega
  | succ rem ih =>
    intro core sec c h1 h2 hbitc hlen hs hc
    rw [segmmu_cores]
    by_cases hbit : mask &&& (1 <<< core) = 0
    · rw [if_pos hbit]
      have hcne : c ≠ core := fun hc2 => hbitc (hc2 ▸ hbit)
      exact ih (core + 1) sec c (by omega) (by omega) hbitc hlen hs hc
    · rw [if_neg hbit, if_pos hseg, if_pos hctrl]
      by_cases hcc : c = core
      · rw [segmmu_cores_untouched seg ctrl mask pa rem (core + 1) _ c seg ctrl
          (Or.inr (Or.inr (Or.inl (by omega))))]
        rw [hcc] at hlen hs hc ⊢
        exact seg_ctrl_write_self sec core seg ctrl pa hlen hs hc
      · have hlen2 : c < (seg_ctrl_write sec core seg ctrl pa).length := by
          rw [seg_ctrl_write_length]; exact hlen
        have hgd : (seg_ctrl_write sec core seg ctrl pa).getD c {} = sec.getD c {} :=
          seg_ctrl_write_getD_ne sec core seg ctrl pa c hcc
        have hv := ih (core + 1) (seg_ctrl_write sec core seg ctrl pa) c (by omega) (by omega)
          hbitc hlen2 (by rw [hgd]; exact hs) (by rw [hgd]; exact hc)
        rw [hv, seg_ctrl_write_ne sec core seg ctrl pa c seg ctrl (Or.inl hcc)]

theorem segmmu_bufs_untouched (cc : Nat) :
    ∀ bufs sec c s t,
    (∀ b ∈ bufs, segmmu_seg_idx b.id ≠ s ∨ segmmu_ctrl_idx b.id ≠ t ∨ cc ≤ c ∨
      segmmu_core_mask b.id &&& (1 <<< c) = 0) →
    seg_ctrl_val (segmmu_bufs_loop cc bufs sec) c s t = seg_ctrl_val sec c s t := by
  intro bufs
  induction bufs with
  | nil => intro sec c s t _; rfl
  | cons b bs ih =>
    intro sec c s t h
    rw [segmmu_bufs_loop]
    by_cases hpre : segmmu_core_mask b.id &&& ((1 <<< cc) - 1) = 0
    · rw [if_pos hpre]
    · rw [if_neg hpre]
      have hb := h b (List.mem_cons_self b bs)
      have hd : s ≠ segmmu_seg_idx b.id ∨ t ≠ segmmu_ctrl_idx b.id ∨ c < 0 ∨ 0 + cc ≤ c ∨
          segmmu_core_mask b.id &&& (1 <<< c) = 0 := by
        rcases hb with h1 | h1 | h1 | h1
        · exact Or.inl (Ne.symm h1)
        · exact Or.inr (Or.inl (Ne.symm h1))
        · exact Or.inr (Or.inr (Or.inr (Or.inl (by omega))))
        · exact Or.inr (Or.inr (Or.inr (Or.inr h1)))
      have hu := segmmu_cores_untouched (segmmu_seg_idx b.id) (segmmu_ctrl_idx b.id)
        (segmmu_core_mask b.id) b.pa cc 0 sec c s t hd
      rcases hres : segmmu_cores (segmmu_seg_idx b.id) (segmmu_ctrl_idx b.id)
          (segmmu_core_mask b.id) b.pa cc 0 sec with ⟨sec2, ab⟩
      rw [hres] at hu
      cases ab with
      | true =>
        show seg_ctrl_val sec2 c s t = seg_ctrl_val sec c s t
        exact hu
      | false =>
        show seg_ctrl_val (segmmu_bufs_loop cc bs sec2) c s t = seg_ctrl_val sec c s t
        rw [ih sec2 c s t (fun b2 hb2 => h b2 (List.mem_cons_of_mem b hb2))]
        exact hu

theorem mask_bit_in_range (mask c cc : Nat) (hc : c < cc)
    (hbit : mask &&& (1 <<< c) ≠ 0) : mask &&& ((1 <<< cc) - 1) ≠ 0 := by
  intro h0
  apply hbit
  have h1 : (1 : Nat) <<< c = 2 ^ c := by rw [Nat.shiftLeft_eq, one_mul]
  have h2 : (1 : Nat) <<< cc = 2 ^ cc := by rw [Nat.shiftLeft_eq, one_mul]
  rw [h2] at h0
  rw [h1]
  have hbc : mask.testBit c = false := by
    have h3 : (mask &&& (2 ^ cc - 1)).testBit c = false := by
      rw [h0]; exact Nat.zero_testBit c
    rw [Nat.testBit_and, Nat.testBit_two_pow_sub_one] at h3
    simpa [hc] using h3
  refine Nat.eq_of_testBit_eq (fun i => ?_)
  rw [Nat.testBit_and, Nat.zero_testBit, Nat.testBit_two_pow]
  by_cases hic : c = i
  · subst hic
    simp [hbc]
  · simp [hic]

theorem setup_segmmu_sec_len (num cc : Nat) (cfgs : List SegMMUConfig) :
    (setup_segmmu_sec num cc cfgs).length = cc := by
  simp [setup_segmmu_sec]

theorem setup_segmmu_sec_getD (num cc : Nat) (cfgs : List SegMMUConfig) (i : Nat)
    (hi : i < cc) :
    (setup_segmmu_sec num cc cfgs).getD i {} =
      { cfgs.getD (if num = 1 then 0 else i + 1) {} with
          SegMMU_ctl := SEGMMU_REMAP_SHARE_EN ||| SEGMMU_MEM_CTRL_EN, SegMMU_remap := 0 } := by
  have hl : i < (setup_segmmu_sec num cc cfgs).length := by
    rw [setup_segmmu_sec_len]; exact hi
  rw [List.getD_eq_getElem _ _ hl]
  simp [setup_segmmu_sec]

def cfgA : SegMMUConfig := { seg := [[11, 12], [0, 0], [0, 0], [0, 0]] }

def cfgB : SegMMUConfig := { seg := [[21, 22], [0, 0], [0, 0], [0, 0]] }

/-- C8 counterexample: with segmmu_num = 2 and one core, the claim says
core 0 receives the 0th config (cfgA); the code increments the config
pointer BEFORE its first use whenever segmmu_num is not 1, so core 0
actually receives config 1 (cfgB). -/
theorem c8_segmmu_counterexample :
    setup_segmmu 2 1 [cfgA, cfgB] [] =
      [{ cfgB with SegMMU_ctl := SEGMMU_REMAP_SHARE_EN ||| SEGMMU_MEM_CTRL_EN }] ∧
    setup_segmmu 2 1 [cfgA, cfgB] [] ≠
      [{ cfgA with SegMMU_ctl := SEGMMU_REMAP_SHARE_EN ||| SEGMMU_MEM_CTRL_EN }] :=
  ⟨by rfl, by decide⟩

/-- C8 (amended: when segmmu_num is neither 0 nor 1 the per-core walk
pre-increments the config pointer, so core i receives config i + 1, not
config i): for nonzero segmmu_num, (a) exactly one SegMMUConfig is
materialized per core — the shared config 0 for every core when
segmmu_num = 1, config i + 1 for core i otherwise — each with
SegMMU_ctl = REMAP_SHARE_EN | MEM_CTRL_EN and SegMMU_remap = 0; (b) the
tagged-buffer walk runs over that materialized list; (c) a control word
(core c, segment s, word t) can change only if some tagged buffer
selects it: its seg_idx equals s, its ctrl_idx equals t, c is one of the
job's cores, and bit c of its core_mask is set; (d) each such write
stores the buffer's pa (upper bits) while preserving the low 14 bits of
the existing control word, truncated to 32 bits; (e) for a single
in-range tagged buffer, every selected core's targeted control word
receives exactly that value. -/
theorem c8_segmmu (num cc : Nat) (cfgs : List SegMMUConfig) (bufs : List SegmmuIobuf)
    (hnum : num ≠ 0) :
    ((setup_segmmu_sec num cc cfgs).length = cc ∧
      ∀ i, i < cc → (setup_segmmu_sec num cc cfgs).getD i {} =
        { cfgs.getD (if num = 1 then 0 else i + 1) {} with
            SegMMU_ctl := SEGMMU_REMAP_SHARE_EN ||| SEGMMU_MEM_CTRL_EN,
            SegMMU_remap := 0 }) ∧
    setup_segmmu num cc cfgs bufs =
      segmmu_bufs_loop cc bufs (setup_segmmu_sec num cc cfgs) ∧
    (∀ c s t, (∀ b ∈ bufs, segmmu_seg_idx b.id ≠ s ∨ segmmu_ctrl_idx b.id ≠ t ∨ cc ≤ c ∨
        segmmu_core_mask b.id &&& (1 <<< c) = 0) →
      seg_ctrl_val (setup_segmmu num cc cfgs bufs) c s t =
        seg_ctrl_val (setup_segmmu_sec num cc cfgs) c s t) ∧
    (∀ sec core seg ctrl pa, core < List.length sec →
      seg < (sec.getD core {}).seg.length →
      ctrl < ((sec.getD core {}).seg.getD seg []).length →
      seg_ctrl_val (seg_ctrl_write sec core seg ctrl pa) core seg ctrl =
        (seg_ctrl_val sec core seg ctrl &&& 0x3fff |||
          (pa &&& 0xFFFFFFFFFFFFC000)) % 4294967296) ∧
    (∀ b c, segmmu_seg_idx b.id < 4 → segmmu_ctrl_idx b.id ≤ 1 → c < cc →
      segmmu_core_mask b.id &&& (1 <<< c) ≠ 0 →
      segmmu_seg_idx b.id < ((setup_segmmu_sec num cc cfgs).getD c {}).seg.length →
      segmmu_ctrl_idx b.id <
        (((setup_segmmu_sec num cc cfgs).getD c {}).seg.getD (segmmu_seg_idx b.id) []).length →
      seg_ctrl_val (setup_segmmu num cc cfgs [b]) c (segmmu_seg_idx b.id)
          (segmmu_ctrl_idx b.id) =
        (seg_ctrl_val (setup_segmmu_sec num cc cfgs) c (segmmu_seg_idx b.id)
            (segmmu_ctrl_idx b.id) &&& 0x3fff |||
          (b.pa &&& 0xFFFFFFFFFFFFC000)) % 4294967296) := by
  have hunf : ∀ bs : List SegmmuIobuf, setup_segmmu num cc cfgs bs =
      segmmu_bufs_loop cc bs (setup_segmmu_sec num cc cfgs) := by
    intro bs; simp [setup_segmmu, hnum]
  refine ⟨⟨setup_segmmu_sec_len num cc cfgs,
    fun i hi => setup_segmmu_sec_getD num cc cfgs i hi⟩, hunf bufs, ?_, ?_, ?_⟩
  · intro c s t h
    rw [hunf bufs]
    exact segmmu_bufs_untouched cc bufs _ c s t h
  · intro sec core seg ctrl pa h1 h2 h3
    exact seg_ctrl_write_self sec core seg ctrl pa h1 h2 h3
  · intro b c hseg hctrl hccc hbit hs hcb
    have hpre := mask_bit_in_range (segmmu_core_mask b.id) c cc hccc hbit
    rw [hunf [b], segmmu_bufs_loop, if_neg hpre]
    have hlenc : c < (setup_segmmu_sec num cc cfgs).length := by
      rw [setup_segmmu_sec_len]; exact hccc
    rcases hres : segmmu_cores (segmmu_seg_idx b.id) (segmmu_ctrl_idx b.id)
        (segmmu_core_mask b.id) b.pa cc 0 (setup_segmmu_sec num cc cfgs) with ⟨sec2, ab⟩
    have hab : ab = false := by
      have h2 := segmmu_cores_no_abort (segmmu_seg_idx b.id) (segmmu_ctrl_idx b.id)
        (segmmu_core_mask b.id) b.pa hseg hctrl cc 0 (setup_segmmu_sec num cc cfgs)
      rw [hres] at h2
      exact h2
    subst hab
    have hv := segmmu_cores_sel (segmmu_seg_idx b.id) (segmmu_ctrl_idx b.id)
      (segmmu_core_mask b.id) b.pa hseg hctrl cc 0 (setup_segmmu_sec num cc cfgs) c
      (Nat.zero_le c) (by omega) hbit hlenc hs hcb
    rw [hres] at hv
    exact hv

/-- C8 witness: one core, the shared config (segmmu_num = 1), and one
tagged buffer with seg_idx 1, ctrl_idx 0, core_mask 1, pa 0x12345678:
the materialized config has SegMMU_ctl = 0x21, and seg[1].control[0] of
core 0 ends up 0x12344000 (pa with the low 14 bits masked off). -/
theorem c8_segmmu_witness :
    seg_ctrl_val (setup_segmmu 1 1 [{}] [{ id := 0x00010001, pa := 0x12345678 }]) 0
        (segmmu_seg_idx 0x00010001) (segmmu_ctrl_idx 0x00010001) = 0x12344000 ∧
    (setup_segmmu_sec 1 1 [{}]).getD 0 {} =
      { SegMMU_ctl := SEGMMU_REMAP_SHARE_EN ||| SEGMMU_MEM_CTRL_EN } := by
  have h := c8_segmmu 1 1 [{}] [{ id := 0x00010001, pa := 0x12345678 }] (by decide)
  refine ⟨?_, ?_⟩
  · have he := h.2.2.2.2 { id := 0x00010001, pa := 0x12345678 } 0 (by decide) (by decide)
      (by decide) (by decide) (by decide) (by decide)
    exact he.trans (by decide)
  · exact (h.1.2 0 (by decide)).trans (by rfl)

/- ----------------------------------------------------------------
Claim C7: ParserBase::parse_bss_section (parser_base.cpp:155-335)
---------------------------------------------------------------- -/

/-- Modelled from the spec: the pointer guard used on every descriptor
read during the BSS walk (its definition is not among the provided
sources); a read of `len` bytes at `p` is valid when it lies within
`[lb, ub]`. -/
def umd_is_valid_ptr (lb ub p len : Nat) : Bool :=
  decide (lb ≤ p) && decide (p + len ≤ ub)

/-- The BSS header fields that drive the walk (`BSSHeader`, spec §6). -/
structure BSSHeader where
  stack_size : Nat := 0
  stack_align_bytes : Nat := 0
  static_section_desc_cnt : Nat := 0
  reuse_section_desc_cnt : Nat := 0
  deriving Repr, DecidableEq

/-- The innermost loop: `offset_in_ro_cnt` guarded u32 reads, 4 bytes
each.  Returns the address after the run and the log of performed
(address, length) reads; a failed guard aborts with INVALID_GBIN
(`goto overflow`). -/
def ro_loop (lb ub : Nat) : Nat → Nat → (Except AipuStatus Nat) × List (Nat × Nat)
  | 0, addr => (.ok addr, [])
  | rem + 1, addr =>
    if umd_is_valid_ptr lb ub addr 4 then
      ((ro_loop lb ub rem (addr + 4)).1, (addr, 4) :: (ro_loop lb ub rem (addr + 4)).2)
    else (.error .INVALID_GBIN, [])

/-- The sub-section loop: each iteration performs one guarded
`SubSectionDesc` read (`szSub` bytes, whose `offset_in_ro_cnt` field is
`ro_cnt_at addr`), then the u32 run. -/
def sub_loop (ro_cnt_at : Nat → Nat) (szSub lb ub : Nat) :
    Nat → Nat → (Except AipuStatus Nat) × List (Nat × Nat)
  | 0, addr => (.ok addr, [])
  | rem + 1, addr =>
    if umd_is_valid_ptr lb ub addr szSub then
      match ro_loop lb ub (ro_cnt_at addr) (addr + szSub) with
      | (.error e, log1) => (.error e, (addr, szSub) :: log1)
      | (.ok addr2, log1) =>
        ((sub_loop ro_cnt_at szSub lb ub rem addr2).1,
          (addr, szSub) :: log1 ++ (sub_loop ro_cnt_at szSub lb ub rem addr2).2)
    else (.error .INVALID_GBIN, [])

/-- The section loop (used for both the static and the reuse walk):
each iteration performs one guarded section-descriptor read (`szDesc`
bytes, whose `sub_section_cnt` field is `sub_cnt_at addr`), then the
sub-section loop. -/
def sec_loop (sub_cnt_at ro_cnt_at : Nat → Nat) (szDesc szSub lb ub : Nat) :
    Nat → Nat → (Except AipuStatus Nat) × List (Nat × Nat)
  | 0, addr => (.ok addr, [])
  | rem + 1, addr =>
    if umd_is_valid_ptr lb ub addr szDesc then
      match sub_loop ro_cnt_at szSub lb ub (sub_cnt_at addr) (addr + szDesc) with
      | (.error e, log1) => (.error e, (addr, szDesc) :: log1)
      | (.ok addr2, log1) =>
        ((sec_loop sub_cnt_at ro_cnt_at szDesc szSub lb ub rem addr2).1,
          (addr, szDesc) :: log1 ++ (sec_loop sub_cnt_at ro_cnt_at szDesc szSub lb ub rem addr2).2)
    else (.error .INVALID_GBIN, [])

/-- Sequencing of two logged walks: the second runs from the address the
first returned; the logs concatenate; an error in the first short
circuits. -/
def chainLog (x : (Except AipuStatus Nat) × List (Nat × Nat))
    (f : Nat → (Except AipuStatus Nat) × List (Nat × Nat)) :
    (Except AipuStatus Nat) × List (Nat × Nat) :=
  match x with
  | (.error e, log1) => (.error e, log1)
  | (.ok a, log1) => ((f a).1, log1 ++ (f a).2)

/-- `ParserBase::parse_bss_section`: bounds `[bss, bss + szHeader + size]`
(the upper bound is disabled to UINT64_MAX when the `size` argument is
0), header-field validation, then the static walk followed by the reuse
walk.  `sub_cnt_at` / `ro_cnt_at` give the count fields of the
descriptor that would be read at a given address; the second component
is the log of performed (address, length) descriptor reads. -/
def parse_bss_section (hdr : BSSHeader) (sub_cnt_at ro_cnt_at : Nat → Nat)
    (szHeader szStatic szReuse szSub : Nat) (bss size : Nat) :
    (Except AipuStatus Nat) × List (Nat × Nat) :=
  let lb := bss
  let ub := if size = 0 then 18446744073709551615 else bss + szHeader + size
  if hdr.stack_size = 0 ∨ hdr.stack_align_bytes = 0 ∨ hdr.reuse_section_desc_cnt = 0 then
    (.error .INVALID_GBIN, [])
  else
    chainLog
      (sec_loop sub_cnt_at ro_cnt_at szStatic szSub lb ub hdr.static_section_desc_cnt
        (bss + szHeader))
      (fun addr2 =>
        sec_loop sub_cnt_at ro_cnt_at szReuse szSub lb ub hdr.reuse_section_desc_cnt addr2)

theorem chainLog_mem (x : (Except AipuStatus Nat) × List (Nat × Nat))
    (f : Nat → (Except AipuStatus Nat) × List (Nat × Nat)) (p : Nat × Nat)
    (hp : p ∈ (chainLog x f).2) :
    p ∈ x.2 ∨ ∃ a, x.1 = .ok a ∧ p ∈ (f a).2 := by
  rcases x with ⟨r, log⟩
  cases r with
  | error e => exact Or.inl hp
  | ok a =>
    have hp2 : p ∈ log ++ (f a).2 := hp
    rcases List.mem_append.mp hp2 with h | h
    · exact Or.inl h
    · exact Or.inr ⟨a, rfl, h⟩

theorem chainLog_err (x : (Except AipuStatus Nat) × List (Nat × Nat))
    (f : Nat → (Except AipuStatus Nat) × List (Nat × Nat)) (e : AipuStatus)
    (he : (chainLog x f).1 = .error e) :
    x.1 = .error e ∨ ∃ a, x.1 = .ok a ∧ (f a).1 = .error e := by
  rcases x with ⟨r, log⟩
  cases r with
  | error e2 =>
    have h2 : (Except.error e2 : Except AipuStatus Nat) = .error e := he
    exact Or.inl h2
  | ok a => exact Or.inr ⟨a, rfl, he⟩

theorem umd_is_valid_ptr_iff (lb ub p len : Nat) :
    umd_is_valid_ptr lb ub p len = true ↔ lb ≤ p ∧ p + len ≤ ub := by
  simp [umd_is_valid_ptr]

theorem ro_loop_log (lb ub : Nat) : ∀ rem addr, ∀ p ∈ (ro_loop lb ub rem addr).2,
    lb ≤ p.1 ∧ p.1 + p.2 ≤ ub := by
  intro rem
  induction rem with
  | zero => intro addr p hp; simp [ro_loop] at hp
  | succ rem ih =>
    intro addr p hp
    rw [ro_loop] at hp
    by_cases hg : umd_is_valid_ptr lb ub addr 4 = true
    · rw [if_pos hg] at hp
      have hgb := (umd_is_valid_ptr_iff lb ub addr 4).mp hg
      have hp2 : p ∈ (addr, 4) :: (ro_loop lb ub rem (addr + 4)).2 := hp
      rcases List.mem_cons.mp hp2 with h | h
      · rw [h]; exact hgb
      · exact ih (addr + 4) p h
    · rw [if_neg hg] at hp
      simp at hp

theorem ro_loop_err (lb ub : Nat) : ∀ rem addr e,
    (ro_loop lb ub rem addr).1 = .error e → e = .INVALID_GBIN := by
  intro rem
  induction rem with
  | zero => intro addr e h; exact absurd h (by simp [ro_loop])
  | succ rem ih =>
    intro addr e h
    rw [ro_loop] at h
    by_cases hg : umd_is_valid_ptr lb ub addr 4 = true
    · rw [if_pos hg] at h
      exact ih (addr + 4) e h
    · rw [if_neg hg] at h
      have h2 : (Except.error .INVALID_GBIN : Except AipuStatus Nat) = .error e := h
      injection h2 with h3
      exact h3.symm

theorem sub_loop_log (ro_cnt_at : Nat → Nat) (szSub lb ub : Nat) :
    ∀ rem addr, ∀ p ∈ (sub_loop ro_cnt_at szSub lb ub rem addr).2,
    lb ≤ p.1 ∧ p.1 + p.2 ≤ ub := by
  intro rem
  induction rem with
  | zero => intro addr p hp; simp [sub_loop] at hp
  | succ rem ih =>
    intro addr p hp
    rw [sub_loop] at hp
    by_cases hg : umd_is_valid_ptr lb ub addr szSub = true
    · rw [if_pos hg] at hp
      have hgb := (umd_is_valid_ptr_iff lb ub addr szSub).mp hg
      rcases hres : ro_loop lb ub (ro_cnt_at addr) (addr + szSub) with ⟨r1, log1⟩
      rw [hres] at hp
      cases r1 with
      | error e =>
        have hp2 : p ∈ (addr, szSub) :: log1 := hp
        rcases List.mem_cons.mp hp2 with h | h
        · rw [h]; exact hgb
        · exact ro_loop_log lb ub (ro_cnt_at addr) (addr + szSub) p (by rw [hres]; exact h)
      | ok addr2 =>
        have hp2 : p ∈ (addr, szSub) ::
            (log1 ++ (sub_loop ro_cnt_at szSub lb ub rem addr2).2) := hp
        rcases List.mem_cons.mp hp2 with h | h
        · rw [h]; exact hgb
        · rcases List.mem_append.mp h with h2 | h2
          · exact ro_loop_log lb ub (ro_cnt_at addr) (addr + szSub) p (by rw [hres]; exact h2)
          · exact ih addr2 p h2
    · rw [if_neg hg] at hp
      simp at hp

theorem sub_loop_err (ro_cnt_at : Nat → Nat) (szSub lb ub : Nat) :
    ∀ rem addr e, (sub_loop ro_cnt_at szSub lb ub rem addr).1 = .error e →
    e = .INVALID_GBIN := by
  intro rem
  induction rem with
  | zero => intro addr e h; exact absurd h (by simp [sub_loop])
  | succ rem ih =>
    intro addr e h
    rw [sub_loop] at h
    by_cases hg : umd_is_valid_ptr lb ub addr szSub = true
    · rw [if_pos hg] at h
      rcases hres : ro_loop lb ub (ro_cnt_at addr) (addr + szSub) with ⟨r1, log1⟩
      rw [hres] at h
      cases r1 with
      | error e2 =>
        have h2 : (Except.error e2 : Except AipuStatus Nat) = .error e := h
        injection h2 with h3
        rw [← h3]
        exact ro_loop_err lb ub (ro_cnt_at addr) (addr + szSub) e2 (by rw [hres])
      | ok addr2 =>
        exact ih addr2 e h
    · rw [if_neg hg] at h
      have h2 : (Except.error .INVALID_GBIN : Except AipuStatus Nat) = .error e := h
      injection h2 with h3
      exact h3.symm

theorem sec_loop_log (sub_cnt_at ro_cnt_at : Nat → Nat) (szDesc szSub lb ub : Nat) :
    ∀ rem addr, ∀ p ∈ (sec_loop sub_cnt_at ro_cnt_at szDesc szSub lb ub rem addr).2,
    lb ≤ p.1 ∧ p.1 + p.2 ≤ ub := by
  intro rem
  induction rem with
  | zero => intro addr p hp; simp [sec_loop] at hp
  | succ rem ih =>
    intro addr p hp
    rw [sec_loop] at hp
    by_cases hg : umd_is_valid_ptr lb ub addr szDesc = true
    · rw [if_pos hg] at hp
      have hgb := (umd_is_valid_ptr_iff lb ub addr szDesc).mp hg
      rcases hres : sub_loop ro_cnt_at szSub lb ub (sub_cnt_at addr) (addr + szDesc)
        with ⟨r1, log1⟩
      rw [hres] at hp
      cases r1 with
      | error e =>
        have hp2 : p ∈ (addr, szDesc) :: log1 := hp
        rcases List.mem_cons.mp hp2 with h | h
        · rw [h]; exact hgb
        · exact sub_loop_log ro_cnt_at szSub lb ub (sub_cnt_at addr) (addr + szDesc) p
            (by rw [hres]; exact h)
      | ok addr2 =>
        have hp2 : p ∈ (addr, szDesc) ::
            (log1 ++ (sec_loop sub_cnt_at ro_cnt_at szDesc szSub lb ub rem addr2).2) := hp
        rcases List.mem_cons.mp hp2 with h | h
        · rw [h]; exact hgb
        · rcases List.mem_append.mp h with h2 | h2
          · exact sub_loop_log ro_cnt_at szSub lb ub (sub_cnt_at addr) (addr + szDesc) p
              (by rw [hres]; exact h2)
          · exact ih addr2 p h2
    · rw [if_neg hg] at hp
      simp at hp

theorem sec_loop_err (sub_cnt_at ro_cnt_at : Nat → Nat) (szDesc szSub lb ub : Nat) :
    ∀ rem addr e, (sec_loop sub_cnt_at ro_cnt_at szDesc szSub lb ub rem addr).1 = .error e →
    e = .INVALID_GBIN := by
  intro rem
  induction rem with
  | zero => intro addr e h; exact absurd h (by simp [sec_loop])
  | succ rem ih =>
    intro addr e h
    rw [sec_loop] at h
    by_cases hg : umd_is_valid_ptr lb ub addr szDesc = true
    · rw [if_pos hg] at h
      rcases hres : sub_loop ro_cnt_at szSub lb ub (sub_cnt_at addr) (addr + szDesc)
        with ⟨r1, log1⟩
      rw [hres] at h
      cases r1 with
      | error e2 =>
        have h2 : (Except.error e2 : Except AipuStatus Nat) = .error e := h
        injection h2 with h3
        rw [← h3]
        exact sub_loop_err ro_cnt_at szSub lb ub (sub_cnt_at addr) (addr + szDesc) e2
          (by rw [hres])
      | ok addr2 =>
        exact ih addr2 e h
    · rw [if_neg hg] at h
      have h2 : (Except.error .INVALID_GBIN : Except AipuStatus Nat) = .error e := h
      injection h2 with h3
      exact h3.symm

/-- C7 counterexample: calling parse_bss_section with size = 0 disables
the upper bound (UINT64_MAX), so the walk reads a 16-byte static
descriptor at 1016 — past the end of the 16-byte-header, 0-byte-body
section [1000, 1016] — yet succeeds instead of failing INVALID_GBIN. -/
theorem c7_bss_counterexample :
    (parse_bss_section ⟨1, 1, 1, 1⟩ (fun _ => 0) (fun _ => 0) 16 16 16 16 1000 0).1 =
      .ok 1048 ∧
    (1016, 16) ∈
      (parse_bss_section ⟨1, 1, 1, 1⟩ (fun _ => 0) (fun _ => 0) 16 16 16 16 1000 0).2 ∧
    ¬ (1016 + 16 ≤ 1000 + 16 + 0) :=
  ⟨by rfl, by decide, by decide⟩

/-- C7 (amended: the bounds check is effective only when the `size`
argument is nonzero — for `size = 0` the upper bound is set to
UINT64_MAX and reads beyond the section pass the guard): for every call
with size ≠ 0, every performed read of a static or reuse section
descriptor, a sub-section descriptor, or a u32 relocation offset lies
within the BSS byte range [bss, bss + szHeader + size]; every error
the walk returns is INVALID_GBIN; and the guard passes exactly the
reads inside [lb, ub]. -/
theorem c7_bss_bounds (hdr : BSSHeader) (sub_cnt_at ro_cnt_at : Nat → Nat)
    (szHeader szStatic szReuse szSub bss size : Nat) (hsz : size ≠ 0) :
    (∀ p ∈ (parse_bss_section hdr sub_cnt_at ro_cnt_at
        szHeader szStatic szReuse szSub bss size).2,
      bss ≤ p.1 ∧ p.1 + p.2 ≤ bss + szHeader + size) ∧
    (∀ e, (parse_bss_section hdr sub_cnt_at ro_cnt_at
        szHeader szStatic szReuse szSub bss size).1 = .error e → e = .INVALID_GBIN) ∧
    (∀ lb ub q len, umd_is_valid_ptr lb ub q len = true ↔ lb ≤ q ∧ q + len ≤ ub) := by
  have hub : (if size = 0 then 18446744073709551615 else bss + szHeader + size) =
      bss + szHeader + size := if_neg hsz
  refine ⟨?_, ?_, fun lb ub q len => umd_is_valid_ptr_iff lb ub q len⟩
  · intro p hp
    simp only [parse_bss_section, hub] at hp
    by_cases hh : hdr.stack_size = 0 ∨ hdr.stack_align_bytes = 0 ∨
        hdr.reuse_section_desc_cnt = 0
    · rw [if_pos hh] at hp
      simp at hp
    · rw [if_neg hh] at hp
      rcases chainLog_mem _ _ p hp with h | ⟨a, _, h⟩
      · exact sec_loop_log sub_cnt_at ro_cnt_at szStatic szSub bss (bss + szHeader + size)
          hdr.static_section_desc_cnt (bss + szHeader) p h
      · exact sec_loop_log sub_cnt_at ro_cnt_at szReuse szSub bss (bss + szHeader + size)
          hdr.reuse_section_desc_cnt a p h
  · intro e he
    simp only [parse_bss_section, hub] at he
    by_cases hh : hdr.stack_size = 0 ∨ hdr.stack_align_bytes = 0 ∨
        hdr.reuse_section_desc_cnt = 0
    · rw [if_pos hh] at he
      have h2 : (Except.error .INVALID_GBIN : Except AipuStatus Nat) = .error e := he
      injection h2 with h3
      exact h3.symm
    · rw [if_neg hh] at he
      rcases chainLog_err _ _ e he with h | ⟨a, _, h⟩
      · exact sec_loop_err sub_cnt_at ro_cnt_at szStatic szSub bss (bss + szHeader + size)
          hdr.static_section_desc_cnt (bss + szHeader) e h
      · exact sec_loop_err sub_cnt_at ro_cnt_at szReuse szSub bss (bss + szHeader + size)
          hdr.reuse_section_desc_cnt a e h

/-- C7 witness: a well-formed call with size = 64: both performed
descriptor reads (at 1016 and 1032, 16 bytes each) lie inside
[1000, 1080]; shown here for the read at 1016. -/
theorem c7_bss_bounds_witness :
    1000 ≤ 1016 ∧ 1016 + 16 ≤ 1000 + 16 + 64 :=
  (c7_bss_bounds ⟨1, 1, 1, 1⟩ (fun _ => 0) (fun _ => 0) 16 16 16 16 1000 64 (by decide)).1
    (1016, 16) (by decide)

/- ----------------------------------------------------------------
Claims C5 and C10: JobV3_1::schedule (job_v3_1.cpp:1280-1359),
SimulatorV3_1::schedule (simulator_v3_1.cpp:280-340) and
SimulatorV3_1::poll_status (simulator_v3_1.cpp:411-423)
---------------------------------------------------------------- -/

/-- Modelled from the spec: partition-mode enum value (the defining
header is not among the provided sources; the value only selects which
TSM_STATUS bit is examined). -/
def POOL_PCP : Nat := 0

/-- Modelled from the spec: see POOL_PCP. -/
def POOL_SCP : Nat := 1

/-- Modelled from the spec: the slow QoS level of `aipu_job_qos_t`. -/
def AIPU_JOB_QOS_SLOW : Nat := 0

/-- Job lifecycle states (`aipu_job_status_t` plus the internal BIND). -/
inductive JobStatus where
  | NO_STATUS | INIT | BIND | SCHED | DONE | EXCEPTION
  deriving Repr, DecidableEq

/-- The TSM registers written when committing a job to the simulator. -/
inductive TsmReg where
  | SCHED_ADDR_HI | SCHED_ADDR_LO | TCB_NUMBER | SCHED_CTRL
  deriving Repr, DecidableEq

/-- The simulator state touched by SimulatorV3_1::schedule: whether the
sim instance exists (`m_aipu`), the TSM_STATUS register value, the busy
flag (`m_cant_add_job_flag`), the partition mode, the pending-job queue
(`m_buffer_queue`, job ids), the committed map (`m_commit_map`,
grid id to job id), and the log of TSM register writes. -/
structure SimState where
  aipu_present : Bool := true
  tsm_status_reg : Nat := 0
  cant_add_job_flag : Bool := false
  partition_mode : Nat := 0
  buffer_queue : List Nat := []
  commit_map : List (Nat × Nat) := []
  reg_writes : List TsmReg := []
  deriving Repr, DecidableEq

/-- `SimulatorV3_1::is_cmdpool_full`. -/
def is_cmdpool_full (qos part_id partition_mode cluster_idx reg_val : Nat) : Bool :=
  let flag :=
    if qos = AIPU_JOB_QOS_SLOW then
      if partition_mode = POOL_SCP ∧ part_id = 1 then (1 <<< (cluster_idx + 4)) &&& reg_val
      else (1 <<< cluster_idx) &&& reg_val
    else
      if partition_mode = POOL_SCP ∧ part_id = 1 then (1 <<< (cluster_idx + 12)) &&& reg_val
      else (1 <<< (cluster_idx + 8)) &&& reg_val
  decide (flag ≠ 0)

/-- `SimulatorV3_1::schedule`: a missing sim instance fails NULL_PTR
before any state change; otherwise the job is pushed onto the buffer
queue, and if the busy flag is clear and the command pool is not full,
the queue's front job is popped, committed under the caller's grid id,
and the TSM registers are programmed (cluster_idx is 0 as produced by
get_cmdpool_id for a fresh binding). -/
def sim_schedule (st : SimState) (jobid grid_id part_id qos : Nat) :
    Except AipuStatus SimState :=
  let pid := if POOL_SCP < part_id then POOL_PCP else part_id
  if st.aipu_present = false then .error .NULL_PTR
  else
    let q := st.buffer_queue ++ [jobid]
    if st.cant_add_job_flag = false ∧
        is_cmdpool_full qos pid st.partition_mode 0 st.tsm_status_reg = false then
      .ok { st with
        cant_add_job_flag := true,
        buffer_queue := q.tail,
        commit_map := st.commit_map ++ [(grid_id, q.headD 0)],
        reg_writes := st.reg_writes ++
          [.SCHED_ADDR_HI, .SCHED_ADDR_LO, .TCB_NUMBER, .SCHED_CTRL, .SCHED_CTRL] }
    else .ok { st with buffer_queue := q }

/-- Device-visible memory writes JobV3_1::schedule performs before the
device submission: the err-code buffer zeroize (`m_err_code.size() == 1`)
and the TCB-chain restore from the backup copy (re-run of a job whose
backup was already consumed). -/
inductive MemEvent where
  | zeroize_err_code | restore_tcb
  deriving Repr, DecidableEq

/-- The job-side state JobV3_1::schedule touches. -/
structure JobState where
  status : JobStatus := .INIT
  backup_tcb_used : Bool := false
  deriving Repr, DecidableEq

/-- `JobV3_1::schedule`.  `validate_ok` abstracts
`validate_schedule_status` (defined in the base class, not among the
provided sources; on failure schedule returns immediately — the
concrete status code it propagates is irrelevant here and is stood in
for by INVALID_OP).  Returns the status, the new job state, the new
simulator state, and the device-memory write events performed. -/
def job_schedule (validate_ok : Bool) (sg_cnt err_code_cnt : Nat) (has_backup : Bool)
    (text_size : Nat) (is_defer_run do_trigger : Bool) (js : JobState) (sim : SimState)
    (jobid grid_id part_id qos : Nat) :
    (Except AipuStatus Unit) × JobState × SimState × List MemEvent :=
  if validate_ok = false then (.error .INVALID_OP, js, sim, [])
  else if sg_cnt = 0 then (.ok (), js, sim, [])
  else
    let ev := (if err_code_cnt = 1 then [MemEvent.zeroize_err_code] else []) ++
      (if has_backup ∧ js.backup_tcb_used then [MemEvent.restore_tcb] else [])
    let js1 : JobState := { js with backup_tcb_used := true }
    match (if text_size = 0 then Except.ok sim
        else sim_schedule sim jobid grid_id part_id qos) with
    | .error e => (.error e, js1, sim, ev)
    | .ok sim2 =>
      (.ok (), { js1 with
        status := if is_defer_run = true ∧ do_trigger = false then .BIND else .SCHED },
        sim2, ev)

/-- The entry check of `SimulatorV3_1::poll_status`: a job with zero
subgraphs is marked DONE and the call returns immediately, touching no
device or simulator state; for a nonzero count the call enters the
condition-variable wait loop (concurrency outside this embedding,
represented by `none`). -/
def sim_poll_status (sg_cnt : Nat) (js : JobState) (sim : SimState) :
    Option (JobState × SimState) :=
  if sg_cnt = 0 then some ({ js with status := .DONE }, sim)
  else none

theorem sim_schedule_ok_mem (st : SimState) (jobid grid_id part_id qos : Nat) (st2 : SimState)
    (h : sim_schedule st jobid grid_id part_id qos = .ok st2) :
    jobid ∈ st2.buffer_queue ∨ (grid_id, jobid) ∈ st2.commit_map := by
  simp only [sim_schedule] at h
  by_cases hp : st.aipu_present = false
  · rw [if_pos hp] at h
    exact absurd h (by simp)
  · rw [if_neg hp] at h
    by_cases hf : st.cant_add_job_flag = false ∧
        is_cmdpool_full qos (if POOL_SCP < part_id then POOL_PCP else part_id)
          st.partition_mode 0 st.tsm_status_reg = false
    · rw [if_pos hf] at h
      injection h with h2
      rw [← h2]
      rcases hq : st.buffer_queue with _ | ⟨q, qs⟩
      · right
        simp [hq]
      · left
        simp [hq]
    · rw [if_neg hf] at h
      injection h with h2
      rw [← h2]
      left
      simp

/-- C5 counterexample: a re-run job (status DONE, backup consumed, one
err-code buffer) scheduled against a simulator whose sim instance is
missing: the call fails with NULL_PTR and the job's status is
unchanged, but the err-code zeroize and the TCB-chain restore have
already been written to device memory — a side effect on a failing
call, contradicting "no side effect occurs". -/
theorem c5_schedule_counterexample :
    job_schedule true 1 1 true 1 false false
      { status := .DONE, backup_tcb_used := true } { aipu_present := false } 7 3 0 0 =
      (.error .NULL_PTR, { status := .DONE, backup_tcb_used := true },
        { aipu_present := false }, [MemEvent.zeroize_err_code, MemEvent.restore_tcb]) ∧
    [MemEvent.zeroize_err_code, MemEvent.restore_tcb] ≠ ([] : List MemEvent) :=
  ⟨by rfl, by decide⟩

/-- C5 (amended: on a failing schedule() the job's status and the
simulator state are unchanged, but the err-code zeroize and TCB-backup
restore may already have been written to device memory; they happen on
every validated run with subgraphs, success or failure): (1) a
validation failure returns an error with no effect whatsoever; (2) any
failing call leaves the job status and the simulator state exactly as
before; (3) on every validated run with subgraphs the device-memory
writes are exactly the err-code zeroize (when one err-code buffer
exists) and the TCB restore (when a consumed backup exists); (4) a
successful call with subgraphs and nonempty text leaves the job
enqueued in the simulator's buffer queue or committed under its grid
id, with status BIND for a deferred run without trigger and SCHED
otherwise. -/
theorem c5_schedule (validate_ok : Bool) (sg_cnt err_code_cnt : Nat) (has_backup : Bool)
    (text_size : Nat) (dfr trg : Bool) (js : JobState) (sim : SimState)
    (jobid grid_id part_id qos : Nat) :
    (validate_ok = false →
      job_schedule validate_ok sg_cnt err_code_cnt has_backup text_size dfr trg js sim
        jobid grid_id part_id qos = (.error .INVALID_OP, js, sim, [])) ∧
    (∀ e, (job_schedule validate_ok sg_cnt err_code_cnt has_backup text_size dfr trg js sim
        jobid grid_id part_id qos).1 = .error e →
      (job_schedule validate_ok sg_cnt err_code_cnt has_backup text_size dfr trg js sim
        jobid grid_id part_id qos).2.1.status = js.status ∧
      (job_schedule validate_ok sg_cnt err_code_cnt has_backup text_size dfr trg js sim
        jobid grid_id part_id qos).2.2.1 = sim) ∧
    (validate_ok = true → sg_cnt ≠ 0 →
      (job_schedule validate_ok sg_cnt err_code_cnt has_backup text_size dfr trg js sim
        jobid grid_id part_id qos).2.2.2 =
        (if err_code_cnt = 1 then [MemEvent.zeroize_err_code] else []) ++
        (if has_backup ∧ js.backup_tcb_used then [MemEvent.restore_tcb] else [])) ∧
    (validate_ok = true → sg_cnt ≠ 0 → text_size ≠ 0 →
      ∀ js2 sim2 ev, job_schedule validate_ok sg_cnt err_code_cnt has_backup text_size dfr trg
          js sim jobid grid_id part_id qos = (.ok (), js2, sim2, ev) →
      (jobid ∈ sim2.buffer_queue ∨ (grid_id, jobid) ∈ sim2.commit_map) ∧
      js2.status = (if dfr = true ∧ trg = false then JobStatus.BIND else .SCHED)) := by
  refine ⟨?_, ?_, ?_, ?_⟩
  · intro hv
    simp [job_schedule, hv]
  · intro e he
    by_cases hv : validate_ok = false
    · simp [job_schedule, hv]
    · have hv2 : validate_ok = true := by revert hv; cases validate_ok <;> simp
      by_cases h0 : sg_cnt = 0
      · exact absurd he (by simp [job_schedule, hv2, h0])
      · by_cases ht : text_size = 0
        · exact absurd he (by simp [job_schedule, hv2, h0, ht])
        · rcases hres : sim_schedule sim jobid grid_id part_id qos with e2 | sim2
          · simp [job_schedule, hv2, h0, ht, hres]
          · exact absurd he (by simp [job_schedule, hv2, h0, ht, hres])
  · intro hv h0
    by_cases ht : text_size = 0
    · simp [job_schedule, hv, h0, ht]
    · rcases hres : sim_schedule sim jobid grid_id part_id qos with e2 | sim2
      · simp [job_schedule, hv, h0, ht, hres]
      · simp [job_schedule, hv, h0, ht, hres]
  · intro hv h0 ht js2 sim2 ev heq
    simp only [job_schedule, hv, h0, ht] at heq
    rcases hres : sim_schedule sim jobid grid_id part_id qos with e2 | sim3
    · rw [hres] at heq
      exact absurd heq (by simp)
    · rw [hres] at heq
      have heq2 : ((Except.ok () : Except AipuStatus Unit),
          ({ js with backup_tcb_used := true, status :=
            if dfr = true ∧ trg = false then JobStatus.BIND else .SCHED } : JobState),
          sim3,
          (if err_code_cnt = 1 then [MemEvent.zeroize_err_code] else []) ++
            (if has_backup ∧ js.backup_tcb_used then [MemEvent.restore_tcb] else [])) =
          (Except.ok (), js2, sim2, ev) := heq
      have hsim : sim3 = sim2 := congrArg (fun x => x.2.2.1) heq2
      have hjs : ({ js with backup_tcb_used := true, status :=
          if dfr = true ∧ trg = false then JobStatus.BIND else .SCHED } : JobState) = js2 :=
        congrArg (fun x => x.2.1) heq2
      constructor
      · rw [← hsim]
        exact sim_schedule_ok_mem sim jobid grid_id part_id qos sim3 hres
      · rw [← hjs]

/-- C5 witness: (validation failure is a pure error; a validated re-run
with an err-code buffer and a consumed backup performs exactly those
two device writes; a plain successful run commits job 7 under grid 3 —
it lands in the commit map — and moves to SCHED). -/
theorem c5_schedule_witness :
    job_schedule false 1 1 true 1 false false {} {} 7 3 0 0 =
      (.error .INVALID_OP, {}, {}, []) ∧
    (job_schedule true 1 1 true 1 false false { backup_tcb_used := true } {} 7 3 0 0).2.2.2 =
      [MemEvent.zeroize_err_code, MemEvent.restore_tcb] ∧
    ((7 : Nat) ∈ ([] : List Nat) ∨ ((3 : Nat), (7 : Nat)) ∈ [((3 : Nat), (7 : Nat))]) := by
  have h1 := (c5_schedule false 1 1 true 1 false false {} {} 7 3 0 0).1 rfl
  have h2 := (c5_schedule true 1 1 true 1 false false { backup_tcb_used := true } {}
    7 3 0 0).2.2.1 rfl (by decide)
  have h3 := (c5_schedule true 1 0 false 1 false false {} {} 7 3 0 0).2.2.2 rfl (by decide)
    (by decide) { status := .SCHED, backup_tcb_used := true }
    { cant_add_job_flag := true, commit_map := [(3, 7)],
      reg_writes := [.SCHED_ADDR_HI, .SCHED_ADDR_LO, .TCB_NUMBER, .SCHED_CTRL, .SCHED_CTRL] }
    [] (by rfl)
  exact ⟨h1, h2.trans (by decide), h3.1⟩

/-- C10: for a job whose graph has zero subgraphs, a validated
schedule() returns success while leaving the job state, the simulator
state, and device memory completely untouched (no submission), and the
simulator's poll_status immediately marks the job DONE and returns,
without waiting or reading any simulator state. -/
theorem c10_zero_subgraph (validate_ok : Bool) (hv : validate_ok = true)
    (err_code_cnt : Nat) (has_backup : Bool) (text_size : Nat) (dfr trg : Bool)
    (js : JobState) (sim : SimState) (jobid grid_id part_id qos : Nat) :
    job_schedule validate_ok 0 err_code_cnt has_backup text_size dfr trg js sim
      jobid grid_id part_id qos = (.ok (), js, sim, []) ∧
    sim_poll_status 0 js sim = some ({ js with status := .DONE }, sim) := by
  constructor
  · simp [job_schedule, hv]
  · simp [sim_poll_status]

/-- C10 witness: a concrete zero-subgraph job. -/
theorem c10_zero_subgraph_witness :
    job_schedule true 0 1 true 5 false false {} {} 1 2 0 0 = (.ok (), {}, {}, []) ∧
    sim_poll_status 0 {} {} = some ({ status := JobStatus.DONE }, {}) :=
  c10_zero_subgraph true rfl 1 true 5 false false {} {} 1 2 0 0

end NPU
